import Mathlib

/-!
# gctrl: the procedure registry of `controller.go`

A shallow embedding of `src/controller.go` (package `controller`): the
descriptor type `funcMeta`, the registry `Controller`, the constructor `New`,
`Controller.Register`, `Controller.MustRegister`, `Controller.Serve`,
`genFuncMeta` and `checkType`, followed by theorems about them.

Go values that the code inspects through package `reflect` are represented by
their dynamic type and an abstract payload.  A Go function body is a Lean
function returning the state after the call, the lock and map events it
performed, and either its return value or the value it panicked with.
-/

namespace Gctrl

/-! ## Package `reflect` as far as `controller.go` uses it -/

/-- The values of `reflect.Kind`, in the order of their declaration in Go. -/
inductive Kind where
  | Invalid | Bool | Int | Int8 | Int16 | Int32 | Int64
  | Uint | Uint8 | Uint16 | Uint32 | Uint64 | Uintptr
  | Float32 | Float64 | Complex64 | Complex128
  | Array | Chan | Func | Interface | Map | Ptr | Slice | String | Struct
  | UnsafePointer
  deriving DecidableEq, Repr

/-- A `reflect.Type`: the name of the type, its kind and, for a type of kind
`Func`, the types of its parameters and of its results in declaration order.
For a type of another kind the two lists are not observable (`NumIn`, `In`,
`NumOut` and `Out` panic). -/
inductive RType where
  | mk (name : String) (kind : Gctrl.Kind) (ins : List RType) (outs : List RType)

/-- What a Go `panic` carries: a run-time error of the Go runtime or of
package `reflect`, or an `error` value handed to `panic` by the program. -/
inductive PanicValue (ε : Type) where
  | runtimeError (msg : String)
  | error (e : ε)

/-- How a Go function body ends: it returns a value or it panics. -/
inductive Outcome (ε α : Type) where
  | ret (a : α)
  | panic (v : PanicValue ε)

/-- The method `Type.Kind` of a `reflect.Type`. -/
def RType.Kind : RType → Gctrl.Kind
  | .mk _ kind _ _ => kind

/-- The method `Type.NumIn`: the number of parameters of a function type; it
panics if the type's kind is not `Func`. -/
def RType.NumIn {ε : Type} : RType → Outcome ε Nat
  | .mk _ .Func ins _ => .ret ins.length
  | .mk _ _ _ _ => .panic (.runtimeError "reflect: NumIn of non-func type")

/-- The method `Type.In`: the type of the `i`-th parameter of a function
type; it panics if the type's kind is not `Func` or if `i` is out of range. -/
def RType.In {ε : Type} : RType → Nat → Outcome ε RType
  | .mk _ .Func ins _, i =>
    match ins[i]? with
    | some t => .ret t
    | none => .panic (.runtimeError "reflect: Func index out of bounds")
  | .mk _ _ _ _, _ => .panic (.runtimeError "reflect: In of non-func type")

/-- The method `Type.NumOut`: the number of results of a function type; it
panics if the type's kind is not `Func`. -/
def RType.NumOut {ε : Type} : RType → Outcome ε Nat
  | .mk _ .Func _ outs => .ret outs.length
  | .mk _ _ _ _ => .panic (.runtimeError "reflect: NumOut of non-func type")

/-- The method `Type.Out`: the type of the `i`-th result of a function type;
it panics if the type's kind is not `Func` or if `i` is out of range. -/
def RType.Out {ε : Type} : RType → Nat → Outcome ε RType
  | .mk _ .Func _ outs, i =>
    match outs[i]? with
    | some t => .ret t
    | none => .panic (.runtimeError "reflect: Func index out of bounds")
  | .mk _ _ _ _, _ => .panic (.runtimeError "reflect: Out of non-func type")

/-- A value of the Go type `interface{}`: the nil interface, which has no
dynamic type, or a dynamic type together with a value of that type.  The
value is abstract: `none` is the zero value of the type (for a function type,
the nil function), `some p` is a value identified by `p` (for a function, its
code pointer). -/
inductive Iface where
  | nil
  | val (typ : RType) (data : Option Nat)

/-- The Go comparison `fn == nil` on a value of type `interface{}`: true only
for the interface that has no dynamic type. -/
def Iface.isNil : Iface → Bool
  | .nil => true
  | .val _ _ => false

/-- A `reflect.Value`: the zero Value, or the dynamic type and the value that
an interface held. -/
inductive Value where
  | zero
  | mk (typ : RType) (data : Option Nat)

/-- The function `reflect.TypeOf`: the dynamic type of `i`, the nil `Type`
(here `none`) for the nil interface. -/
def reflect.TypeOf : Iface → Option RType
  | .nil => none
  | .val typ _ => some typ

/-- The function `reflect.ValueOf`: the value `i` holds, the zero `Value` for
the nil interface. -/
def reflect.ValueOf : Iface → Value
  | .nil => .zero
  | .val typ data => .mk typ data

/-- The method `Value.IsNil` for a Value of kind `Func`: whether the function
it holds is the nil function. -/
def Value.holdsNilFunc : Value → Bool
  | .mk (.mk _ .Func _ _) none => true
  | _ => false

/-! ## Errors -/

/-- Modelled from the spec: `genErrFunc` is declared in a file of the
repository that is not under `src/`; `Register` calls the closure
`genErrFunc("Register")` with a message and returns what it yields.  The spec
asks of a registration error only that it is raised by `Register` and that its
message names the offending condition, so the error value is kept symbolic: it
records the operation the closure was made for and the message it was given.
It is a non-nil `error`. -/
structure GctrlError where
  op : String
  msg : String
  deriving DecidableEq, Repr

/-- The closure maker `genErrFunc(op)`, see `GctrlError`. -/
def genErrFunc (op : String) : String → GctrlError :=
  fun msg => { op := op, msg := msg }

/-- A value of the Go interface type `error`: `none` is `nil`. -/
abbrev GoError := Option GctrlError

/-! ## The data model of `controller.go` -/

/-- The struct `funcMeta`; the field `in` is spelled `in_`. -/
structure funcMeta where
  fn : Value
  in_ : List RType
  out : List RType
  name : String
  desc : String

/-- The Go type `map[string]*funcMeta`: a finite map with unique keys. -/
abbrev FuncMap := AList (fun _ : String => funcMeta)

/-- The struct `Controller`.  The field `rwlock` has no content of its own in
a sequential execution; the calls of its methods are recorded as events. -/
structure Controller where
  funcs : FuncMap

/-- What a method of `Controller` does to the lock and to the map `funcs`,
and which handler `Serve` runs, in the order of execution. -/
inductive Event where
  | Lock
  | Unlock
  | RLock
  | RUnlock
  | readFuncs (name : String)
  | writeFuncs (name : String)
  | handleBuiltin (cmd : String)
  | handleFuncCall (cmd : String)
  | prompt
  deriving DecidableEq, Repr

/-- The result of running a method of `Controller`: the controller after the
call, the events of the call, and how the call ended. -/
structure Exec (α : Type) where
  ctrl : Controller
  trace : List Event
  result : Outcome GctrlError α

/-- The function `New`. -/
def New : Controller :=
  { funcs := ∅ }

/-- The function `checkType`. -/
def checkType (kind : Kind) : Bool :=
  match kind with
  | .Bool | .Int64 | .Uint64 | .Float64 | .String => true
  | _ => false

/-- The error message of `genFuncMeta` for a parameter of an unsupported
kind. -/
def paramTypeMsg : String :=
  "supported parameter types are bool, int64, " ++ "uint64, float64 and string"

/-- The first loop of `genFuncMeta`, `for i := 0; i < typ.NumIn(); i++`, with
`k` iterations left, the loop variable at `i` and the slice `in` built so
far. -/
def genFuncMeta.inLoop (typ : RType) :
    Nat → Nat → List RType → Outcome GctrlError (Except String (List RType))
  | 0, _, in_ => .ret (.ok in_)
  | k + 1, i, in_ =>
    match typ.In i with
    | .panic v => .panic v
    | .ret inType =>
      if !checkType inType.Kind then .ret (.error paramTypeMsg)
      else genFuncMeta.inLoop typ k (i + 1) (in_ ++ [inType])

/-- The second loop of `genFuncMeta`, `for i := 0; i < typ.NumOut(); i++`,
with `k` iterations left, the loop variable at `i` and the slice `out` built
so far. -/
def genFuncMeta.outLoop (typ : RType) :
    Nat → Nat → List RType → Outcome GctrlError (List RType)
  | 0, _, out => .ret out
  | k + 1, i, out =>
    match typ.Out i with
    | .panic v => .panic v
    | .ret outType => genFuncMeta.outLoop typ k (i + 1) (out ++ [outType])

/-- The function `genFuncMeta`.  Its two results `(*funcMeta, error)` are
`(meta, nil)` or `(nil, errors.New(msg))`: `Except.ok meta` or
`Except.error msg`.  Calling `Kind` on the nil `Type` is a nil dereference. -/
def genFuncMeta (fn : Iface) (name desc : String) :
    Outcome GctrlError (Except String funcMeta) :=
  match reflect.TypeOf fn with
  | none => .panic (.runtimeError "invalid memory address or nil pointer dereference")
  | some typ =>
    if typ.Kind ≠ Kind.Func then .ret (.error "fn is not a function")
    else
      match typ.NumIn with
      | .panic v => .panic v
      | .ret numIn =>
        match genFuncMeta.inLoop typ numIn 0 [] with
        | .panic v => .panic v
        | .ret (.error msg) => .ret (.error msg)
        | .ret (.ok in_) =>
          match typ.NumOut with
          | .panic v => .panic v
          | .ret numOut =>
            match genFuncMeta.outLoop typ numOut 0 [] with
            | .panic v => .panic v
            | .ret out =>
              .ret (.ok { fn := reflect.ValueOf fn, in_ := in_, out := out,
                          name := name, desc := desc })

/-- The message of `Register` for a name that is already a key of the map:
`fmt.Sprintf("name '%s' has been registered", name)`. -/
def registeredMsg (name : String) : String :=
  "name '" ++ name ++ "' has been registered"

/-- The method `Controller.Register`.  `ctrl.rwlock.Lock()` and the deferred
`ctrl.rwlock.Unlock()` enclose the look-up and the assignment on
`ctrl.funcs`. -/
def Controller.Register (ctrl : Controller) (fn : Iface) (name desc : String) :
    Exec GoError :=
  let errfn := genErrFunc "Register"
  if fn.isNil then
    { ctrl := ctrl, trace := [], result := .ret (some (errfn "fn must not be nil")) }
  else if name = "" then
    { ctrl := ctrl, trace := [], result := .ret (some (errfn "name must not be empty")) }
  else
    match genFuncMeta fn name desc with
    | .panic v => { ctrl := ctrl, trace := [], result := .panic v }
    | .ret (.error msg) => { ctrl := ctrl, trace := [], result := .ret (some (errfn msg)) }
    | .ret (.ok meta) =>
      if (ctrl.funcs.lookup name).isSome then
        { ctrl := ctrl
          trace := [.Lock, .readFuncs name, .Unlock]
          result := .ret (some (errfn (registeredMsg name))) }
      else
        { ctrl := { funcs := ctrl.funcs.insert name meta }
          trace := [.Lock, .readFuncs name, .writeFuncs name, .Unlock]
          result := .ret none }

/-- The method `Controller.MustRegister`; it has no result. -/
def Controller.MustRegister (ctrl : Controller) (fn : Iface) (name desc : String) :
    Exec Unit :=
  let r := ctrl.Register fn name desc
  match r.result with
  | .panic v => { ctrl := r.ctrl, trace := r.trace, result := .panic v }
  | .ret (some err) => { ctrl := r.ctrl, trace := r.trace, result := .panic (.error err) }
  | .ret none => { ctrl := r.ctrl, trace := r.trace, result := .ret () }

/-! ## Packages `unicode`, `strings` and `bufio` as far as `Serve` uses them -/

/-- The function `unicode.IsSpace`: tab, line feed, vertical tab, form feed,
carriage return, space, U+0085, U+00A0 and the other code points with the
Unicode property White_Space. -/
def unicode.IsSpace (r : Char) : Bool :=
  let n := r.toNat
  (9 ≤ n && n ≤ 13) || n == 32 || n == 0x85 || n == 0xA0 || n == 0x1680 ||
    (0x2000 ≤ n && n ≤ 0x200A) || n == 0x2028 || n == 0x2029 || n == 0x202F ||
    n == 0x205F || n == 0x3000

/-- The function `strings.TrimSpace`: `s` without its leading and trailing
white space. -/
def strings.TrimSpace (s : String) : String :=
  String.mk ((s.data.dropWhile unicode.IsSpace).reverse.dropWhile unicode.IsSpace).reverse

/-- The function `dropCR` of package `bufio`, which `ScanLines` applies to a
line: the line without one trailing carriage return. -/
def bufio.dropCR (data : String) : String :=
  match data.data.reverse with
  | c :: rest => if c.toNat = 13 then String.mk rest.reverse else data
  | [] => data

/-- The constant `bufio.MaxScanTokenSize`, the size a `Scanner` made by
`bufio.NewScanner` lets its buffer grow to. -/
def bufio.MaxScanTokenSize : Nat := 64 * 1024

/-- What the transport `rw` delivers to the scanner.  `lines` are the lines
that end with a line feed, in order, each without the line feed (a carriage
return before the line feed is part of the line).  `rest` holds the bytes
after the last line feed, a last line without a line feed; it is empty when
there is none.  `err` tells how reading ends after them: at end of input
(`none`, `io.EOF`) or with a read error, a reader that breaks the contract of
`io.Reader` counting as one.  `errWithData` tells whether the call of `Read`
that delivers the last bytes returns that end condition together with them,
rather than a later call returning it alone. -/
structure Stream where
  lines : List String
  rest : String
  err : Option String
  errWithData : Bool

/-- The errors `Serve` can return, those of `scanner.Err()`: the error of the
failed read, or `bufio.ErrTooLong` for a line that does not fit the buffer of
the scanner. -/
inductive ScanError where
  | ErrTooLong
  | readError (e : String)
  deriving DecidableEq, Repr

/-- The calls of `Scan` on a `Scanner` made by `bufio.NewScanner`, which
splits with `ScanLines`: the texts of the calls that return true, and `Err()`
after the call that returns false.  `Scan` looks for a token in its buffer
before it tests whether the buffer is full, and the buffer holds
`MaxScanTokenSize` bytes at most.  A line with its line feed is found when
both fit the buffer, that is when the line is shorter than `MaxScanTokenSize`;
at a longer one `Scan` stops with `ErrTooLong`.  After the last line feed, a
non-empty `rest` is yielded when it is shorter than `MaxScanTokenSize`, and
also when it fills the buffer exactly and the end condition arrived with its
last bytes, since a token is then looked for at end of input before the test
for a full buffer; otherwise the full buffer stops `Scan` with `ErrTooLong`.
When the lines are used up `Err()` is nil at end of input and the read error
otherwise. -/
def bufio.Scanner.scan (rest : String) (err : Option String) (errWithData : Bool) :
    List String → List String × Option ScanError
  | [] =>
    if rest = "" then ([], err.map ScanError.readError)
    else if rest.utf8ByteSize < bufio.MaxScanTokenSize ∨
        (rest.utf8ByteSize = bufio.MaxScanTokenSize ∧ errWithData = true) then
      ([bufio.dropCR rest], err.map ScanError.readError)
    else ([], some ScanError.ErrTooLong)
  | raw :: more =>
    if bufio.MaxScanTokenSize ≤ raw.utf8ByteSize then ([], some ScanError.ErrTooLong)
    else
      let r := bufio.Scanner.scan rest err errWithData more
      (bufio.dropCR raw :: r.1, r.2)

/-- The body of the loop `for scanner.Scan() { ... }` of `Serve`, run for each
text that `Scan` yields.  `builtin` is the function of that name, which is not
under `src/`; the calls of `handleBuiltin` and `handleFuncCall`, also not
under `src/`, are events: they get `cmd` and `rw`, give nothing back to
`Serve`, and by the specification render their outcome as a response and
return. -/
def Controller.Serve.loop (builtin : String → Bool) : List String → List Event
  | [] => []
  | text :: more =>
    let cmd := strings.TrimSpace text
    if cmd = "" then Controller.Serve.loop builtin more
    else
      [Event.RLock,
        if builtin cmd = true then Event.handleBuiltin cmd else Event.handleFuncCall cmd,
        Event.RUnlock] ++ Controller.Serve.loop builtin more

/-- The method `Controller.Serve`: the call of `prompt`, which is not under
`src/`, then the loop; it returns `scanner.Err()`.  The handlers run under
the read lock and leave the map as it is. -/
def Controller.Serve (builtin : String → Bool) (ctrl : Controller) (rw : Stream) :
    Exec (Option ScanError) :=
  let r := bufio.Scanner.scan rw.rest rw.err rw.errWithData rw.lines
  { ctrl := ctrl, trace := Event.prompt :: Controller.Serve.loop builtin r.1, result := .ret r.2 }

/-! ## Vocabulary of the specification -/

/-- The five kinds the specification allows for a parameter: boolean, signed
64-bit integer, unsigned 64-bit integer, 64-bit float and string. -/
def supportedKinds : List Kind :=
  [Kind.Bool, Kind.Int64, Kind.Uint64, Kind.Float64, Kind.String]

/-- Whether `fn` is a function value: it has a dynamic type, of kind `Func`. -/
def Iface.isFunction : Iface → Bool
  | .val (.mk _ .Func _ _) _ => true
  | _ => false

/-- The parameter types of a function value in declaration order (no types
for a value that is not a function). -/
def Iface.params : Iface → List RType
  | .val (.mk _ .Func ins _) _ => ins
  | _ => []

/-- The result types of a function value in declaration order (no types for a
value that is not a function). -/
def Iface.results : Iface → List RType
  | .val (.mk _ .Func _ outs) _ => outs
  | _ => []

/-- Whether `fn` is nil in the wide sense: the nil interface, or a nil value
of a function type held in a non-nil interface. -/
def Iface.isNilCallable : Iface → Bool
  | .nil => true
  | .val (.mk _ .Func _ _) none => true
  | _ => false

/-- The descriptor the specification expects for a registered function value:
the value passed, its parameter and result types, the name and the
description. -/
def builtMeta (fn : Iface) (name desc : String) : funcMeta :=
  { fn := reflect.ValueOf fn, in_ := fn.params, out := fn.results, name := name, desc := desc }

/-- The conditions of a registration in the order the specification lists
them, each with whether the call violates it and the message that names it. -/
def registerConditions (ctrl : Controller) (fn : Iface) (name : String) :
    List (Bool × String) :=
  [ (fn.isNil, "fn must not be nil"),
    (decide (name = ""), "name must not be empty"),
    (!fn.isFunction, "fn is not a function"),
    (fn.params.any (fun t => decide (t.Kind ∉ supportedKinds)),
      "supported parameter types are bool, int64, uint64, float64 and string"),
    (decide (name ∈ ctrl.funcs.keys), "name '" ++ name ++ "' has been registered") ]

/-- The message of the earliest violated condition of `registerConditions`,
if any condition is violated. -/
def firstViolation (ctrl : Controller) (fn : Iface) (name : String) : Option String :=
  ((registerConditions ctrl fn name).find? (fun c => c.1)).map (fun c => c.2)

/-- The invariant of the registry: every key is non-empty, is the name of
its descriptor, and the descriptor's parameter types all have a kind that
`checkType` accepts. -/
def RegistryInvariant (ctrl : Controller) : Prop :=
  ∀ (key : String) (meta : funcMeta), ctrl.funcs.lookup key = some meta →
    key ≠ "" ∧ meta.name = key ∧ ∀ t ∈ meta.in_, checkType t.Kind = true

/-- The controllers that `New` followed by finitely many calls of `Register`
and of `MustRegister` that do not panic can produce. -/
inductive Reachable : Controller → Prop where
  | new : Reachable New
  | register (ctrl : Controller) (fn : Iface) (name desc : String) :
      Reachable ctrl → Reachable (ctrl.Register fn name desc).ctrl
  | mustRegister (ctrl : Controller) (fn : Iface) (name desc : String) :
      Reachable ctrl → (ctrl.MustRegister fn name desc).result = Outcome.ret () →
      Reachable (ctrl.MustRegister fn name desc).ctrl

/-- The lines of a stream, in order: those that end with a line feed and,
when there are bytes after the last line feed, the line they form. -/
def Stream.allLines (rw : Stream) : List String :=
  rw.lines ++ (if rw.rest = "" then [] else [rw.rest])

/-- The text of a line, without its line terminator. -/
def lineText (raw : String) : String :=
  bufio.dropCR raw

/-- The commands of a list of lines: the texts with the surrounding white
space trimmed, those that are empty left out, in the order of the lines. -/
def commands (lines : List String) : List String :=
  (lines.map (fun raw => strings.TrimSpace (lineText raw))).filter (fun cmd => decide (cmd ≠ ""))

/-- The handler invocation the specification prescribes for a command: the
meta-command handler when the command is classified as builtin, the procedure
call handler otherwise. -/
def dispatch (builtin : String → Bool) (cmd : String) : Event :=
  if builtin cmd = true then Event.handleBuiltin cmd else Event.handleFuncCall cmd

/-- Whether an event is the invocation of a handler. -/
def Event.isHandler : Event → Bool
  | .handleBuiltin _ => true
  | .handleFuncCall _ => true
  | _ => false

/-- Whether a sequence of events respects shared access, `held` telling
whether the read lock is held before it: `RLock` only when it is not held,
`RUnlock` and the handlers only when it is held, and not held at the end. -/
def sharedDiscipline : Bool → List Event → Bool
  | held, [] => !held
  | held, Event.RLock :: es => !held && sharedDiscipline true es
  | held, Event.RUnlock :: es => held && sharedDiscipline false es
  | held, Event.handleBuiltin _ :: es => held && sharedDiscipline held es
  | held, Event.handleFuncCall _ :: es => held && sharedDiscipline held es
  | held, _ :: es => sharedDiscipline held es

/-- Whether a sequence of events respects exclusive access, `held` telling
whether the write lock is held before it: `Lock` only when it is not held,
`Unlock` and the reads and writes of the map only when it is held, and not
held at the end. -/
def exclusiveDiscipline : Bool → List Event → Bool
  | held, [] => !held
  | held, Event.Lock :: es => !held && exclusiveDiscipline true es
  | held, Event.Unlock :: es => held && exclusiveDiscipline false es
  | held, Event.readFuncs _ :: es => held && exclusiveDiscipline held es
  | held, Event.writeFuncs _ :: es => held && exclusiveDiscipline held es
  | held, _ :: es => exclusiveDiscipline held es

/-! ## Sample values -/

/-- The type `int64`. -/
def int64Type : RType := RType.mk "int64" Kind.Int64 [] []

/-- The type `[]string`. -/
def stringSliceType : RType := RType.mk "[]string" Kind.Slice [] []

/-- The type `func(int64, int64) int64`. -/
def addType : RType :=
  RType.mk "func(int64, int64) int64" Kind.Func [int64Type, int64Type] [int64Type]

/-- A function `func(a, b int64) int64`, with code pointer 1. -/
def addFn : Iface := Iface.val addType (some 1)

/-- Another function of the same type, with code pointer 2. -/
def subFn : Iface := Iface.val addType (some 2)

/-- A function `func(xs []string)`, with code pointer 3. -/
def joinFn : Iface := Iface.val (RType.mk "func([]string)" Kind.Func [stringSliceType] []) (some 3)

/-- The value of `var f func(int64) int64`: the nil function of that type,
held in a non-nil interface when passed as `fn`. -/
def nilFn : Iface := Iface.val (RType.mk "func(int64) int64" Kind.Func [int64Type] [int64Type]) none

/-- The defined type `type ID int64`. -/
def idType : RType := RType.mk "ID" Kind.Int64 [] []

/-- The type `int`. -/
def intType : RType := RType.mk "int" Kind.Int [] []

/-- The type `int32`. -/
def int32Type : RType := RType.mk "int32" Kind.Int32 [] []

/-- A function value with the given parameter types and no result, with code
pointer 4; a variadic parameter `...string` appears as its type `[]string`. -/
def funcOf (ins : List RType) : Iface := Iface.val (RType.mk "func" Kind.Func ins []) (some 4)

/-- A line of `MaxScanTokenSize` letters. -/
def longLine : String := String.mk (List.replicate bufio.MaxScanTokenSize (Char.ofNat 97))

/-- A line of `MaxScanTokenSize` spaces. -/
def blankLongLine : String := String.mk (List.replicate bufio.MaxScanTokenSize (Char.ofNat 32))

/-- A stream that ends cleanly: a line of 64 KiB, then the line "add 1 2". -/
def longFirstStream : Stream :=
  { lines := [longLine, "add 1 2"], rest := "", err := none, errWithData := false }

/-- A stream that ends cleanly: the line "add 1 2", then a line of 64 KiB. -/
def longLastStream : Stream :=
  { lines := ["add 1 2", longLine], rest := "", err := none, errWithData := false }

/-- A stream that ends cleanly: a line of 64 KiB, then the line "list". -/
def longThenListStream : Stream :=
  { lines := [longLine, "list"], rest := "", err := none, errWithData := false }

/-- A stream that ends cleanly: a line of 64 KiB, then the line "help". -/
def longThenHelpStream : Stream :=
  { lines := [longLine, "help"], rest := "", err := none, errWithData := false }

/-- A stream that ends cleanly: a line of 64 KiB of spaces, then the line
"add 1 2". -/
def blankLongStream : Stream :=
  { lines := [blankLongLine, "add 1 2"], rest := "", err := none, errWithData := false }

/-- A stream of short lines that ends cleanly: three lines with a line feed,
the second one empty, and a last line without a line feed. -/
def shortStream : Stream :=
  { lines := ["help", "", "add 1 2"], rest := "list", err := none, errWithData := true }

/-- A stream that is one line of 64 KiB without a line feed, whose last bytes
arrive together with the end of input. -/
def fullBufferStream : Stream :=
  { lines := [], rest := longLine, err := none, errWithData := true }

/-- A classification of commands: "help" and "list" are meta-commands. -/
def sampleBuiltin (cmd : String) : Bool :=
  cmd = "help" || cmd = "list"

/-- The controller after `Register(addFn, "add", "sum")` on a new one. -/
def addController : Controller := (New.Register addFn "add" "sum").ctrl

/-! ## The two loops of `genFuncMeta` on a function type -/

/-- On a type of kind `Func` the parameter loop, started at index `i` with as
many iterations left as there are parameters from `i` on, never panics: it
appends the remaining parameter types when all of them pass `checkType` and
reports the unsupported-kind message otherwise. -/
theorem inLoop_func (nm : String) (ins outs : List RType) :
    ∀ (k i : Nat) (acc : List RType), i + k = ins.length →
      genFuncMeta.inLoop (RType.mk nm Kind.Func ins outs) k i acc =
        if (ins.drop i).all (fun t => checkType t.Kind) then
          Outcome.ret (Except.ok (acc ++ ins.drop i))
        else Outcome.ret (Except.error paramTypeMsg) := by
  intro k
  induction k with
  | zero =>
    intro i acc h
    have hi : i = ins.length := by omega
    subst hi
    simp [genFuncMeta.inLoop]
  | succ k ih =>
    intro i acc h
    have hi : i < ins.length := by omega
    have hd : ins.drop i = ins[i] :: ins.drop (i + 1) := List.drop_eq_getElem_cons hi
    have hg : ins[i]? = some ins[i] := List.getElem?_eq_getElem hi
    rw [hd, List.all_cons]
    simp only [genFuncMeta.inLoop, RType.In, hg]
    by_cases hc : checkType ins[i].Kind = true
    · rw [ih (i + 1) (acc ++ [ins[i]]) (by omega)]
      simp only [hc, Bool.not_true, Bool.true_and, List.append_assoc, List.singleton_append]
      rfl
    · simp only [hc, Bool.not_eq_true] at hc ⊢
      simp [hc]

/-- On a type of kind `Func` the result loop never panics and appends the
remaining result types. -/
theorem outLoop_func (nm : String) (ins outs : List RType) :
    ∀ (k i : Nat) (acc : List RType), i + k = outs.length →
      genFuncMeta.outLoop (RType.mk nm Kind.Func ins outs) k i acc =
        Outcome.ret (acc ++ outs.drop i) := by
  intro k
  induction k with
  | zero =>
    intro i acc h
    have hi : i = outs.length := by omega
    subst hi
    simp [genFuncMeta.outLoop]
  | succ k ih =>
    intro i acc h
    have hi : i < outs.length := by omega
    have hd : outs.drop i = outs[i] :: outs.drop (i + 1) := List.drop_eq_getElem_cons hi
    have hg : outs[i]? = some outs[i] := List.getElem?_eq_getElem hi
    rw [hd]
    simp [genFuncMeta.outLoop, RType.Out, hg, ih (i + 1) (acc ++ [outs[i]]) (by omega)]

/-- The result of `genFuncMeta` on a value whose dynamic type has kind
`Func`. -/
theorem genFuncMeta_func (nm : String) (ins outs : List RType) (data : Option Nat)
    (name desc : String) :
    genFuncMeta (Iface.val (RType.mk nm Kind.Func ins outs) data) name desc =
      if ins.all (fun t => checkType t.Kind) then
        Outcome.ret (Except.ok
          { fn := Value.mk (RType.mk nm Kind.Func ins outs) data, in_ := ins, out := outs,
            name := name, desc := desc })
      else Outcome.ret (Except.error paramTypeMsg) := by
  have h1 := inLoop_func nm ins outs ins.length 0 [] (by omega)
  have h2 := outLoop_func nm ins outs outs.length 0 [] (by omega)
  simp only [List.drop_zero, List.nil_append] at h1 h2
  have hk : (RType.mk nm Kind.Func ins outs).Kind = Kind.Func := rfl
  by_cases hc : ins.all (fun t => checkType t.Kind) = true
  · rw [if_pos hc] at h1
    rw [if_pos hc]
    simp only [genFuncMeta, reflect.TypeOf, reflect.ValueOf, hk, RType.NumIn, RType.NumOut,
      h1, h2, ne_eq, not_true_eq_false, if_false]
  · rw [if_neg hc] at h1
    rw [if_neg hc]
    simp only [genFuncMeta, reflect.TypeOf, hk, RType.NumIn, h1, ne_eq, not_true_eq_false,
      if_false]

/-- The result of `genFuncMeta` on a value whose dynamic type is not of kind
`Func`. -/
theorem genFuncMeta_nonFunc (typ : RType) (data : Option Nat) (name desc : String)
    (h : typ.Kind ≠ Kind.Func) :
    genFuncMeta (Iface.val typ data) name desc =
      Outcome.ret (Except.error "fn is not a function") := by
  simp [genFuncMeta, reflect.TypeOf, h]

/-! ## `checkType` and `Register` in closed form -/

/-- The kinds `checkType` accepts are the members of `supportedKinds`. -/
theorem checkType_eq_true_iff (k : Kind) : checkType k = true ↔ k ∈ supportedKinds := by
  cases k <;> simp [checkType, supportedKinds]

/-- All parameters pass `checkType` exactly when none has an unsupported
kind. -/
theorem all_checkType_iff (ins : List RType) :
    ins.all (fun t => checkType t.Kind) = true ↔ ∀ t ∈ ins, t.Kind ∈ supportedKinds := by
  simp [List.all_eq_true, checkType_eq_true_iff]

/-- The cascade of `Register`: the five checks in their order, then the
insertion. -/
theorem Register_eq (ctrl : Controller) (fn : Iface) (name desc : String) :
    ctrl.Register fn name desc =
      if fn.isNil = true then
        { ctrl := ctrl, trace := [],
          result := Outcome.ret (some (genErrFunc "Register" "fn must not be nil")) }
      else if name = "" then
        { ctrl := ctrl, trace := [],
          result := Outcome.ret (some (genErrFunc "Register" "name must not be empty")) }
      else if fn.isFunction = false then
        { ctrl := ctrl, trace := [],
          result := Outcome.ret (some (genErrFunc "Register" "fn is not a function")) }
      else if fn.params.all (fun t => checkType t.Kind) = false then
        { ctrl := ctrl, trace := [],
          result := Outcome.ret (some (genErrFunc "Register" paramTypeMsg)) }
      else if (ctrl.funcs.lookup name).isSome = true then
        { ctrl := ctrl, trace := [Event.Lock, Event.readFuncs name, Event.Unlock],
          result := Outcome.ret (some (genErrFunc "Register" (registeredMsg name))) }
      else
        { ctrl := { funcs := ctrl.funcs.insert name (builtMeta fn name desc) },
          trace := [Event.Lock, Event.readFuncs name, Event.writeFuncs name, Event.Unlock],
          result := Outcome.ret none } := by
  rcases fn with _ | ⟨⟨nm, k, ins, outs⟩, d⟩
  · simp [Controller.Register, Iface.isNil]
  · by_cases hn : name = ""
    · simp [Controller.Register, Iface.isNil, hn]
    · by_cases hk : k = Kind.Func
      · subst hk
        by_cases hc : ins.all (fun t => checkType t.Kind) = true
        · by_cases hl : (ctrl.funcs.lookup name).isSome = true
          · simp only [Controller.Register, Iface.isNil, hn, genFuncMeta_func, hc, hl,
              Iface.isFunction, Iface.params]
            simp
          · simp only [Controller.Register, Iface.isNil, hn, genFuncMeta_func, hc, hl,
              Iface.isFunction, Iface.params, builtMeta, Iface.results, reflect.ValueOf]
            simp
        · simp only [Controller.Register, Iface.isNil, hn, genFuncMeta_func, hc,
            Iface.isFunction, Iface.params]
          simp
      · have hk2 : (RType.mk nm k ins outs).Kind ≠ Kind.Func := hk
        have hf : (Iface.val (RType.mk nm k ins outs) d).isFunction = false := by
          cases k <;> first | rfl | exact absurd rfl hk
        simp only [Controller.Register, Iface.isNil, hn, genFuncMeta_nonFunc _ _ _ _ hk2, hf]
        simp

/-- `Register` never panics. -/
theorem Register_result_ret (ctrl : Controller) (fn : Iface) (name desc : String) :
    ∃ err, (ctrl.Register fn name desc).result = Outcome.ret err := by
  rw [Register_eq]
  split_ifs <;> exact ⟨_, rfl⟩

/-- A call of `Register` that returns an error leaves the controller as it
was. -/
theorem Register_error_ctrl (ctrl : Controller) (fn : Iface) (name desc : String)
    (err : GctrlError) (h : (ctrl.Register fn name desc).result = Outcome.ret (some err)) :
    (ctrl.Register fn name desc).ctrl = ctrl := by
  rw [Register_eq] at h ⊢
  split_ifs at h ⊢ <;> first | rfl | simp at h

/-- When `Register` returns nil, each of its five checks passed and the map
gained the built descriptor under `name`. -/
theorem Register_nil_inv (ctrl : Controller) (fn : Iface) (name desc : String)
    (h : (ctrl.Register fn name desc).result = Outcome.ret none) :
    fn.isNil = false ∧ name ≠ "" ∧ fn.isFunction = true ∧
      fn.params.all (fun t => checkType t.Kind) = true ∧
      ctrl.funcs.lookup name = none ∧
      (ctrl.Register fn name desc).ctrl =
        { funcs := ctrl.funcs.insert name (builtMeta fn name desc) } := by
  rw [Register_eq] at h ⊢
  split_ifs at h ⊢ with h1 h2 h3 h4 h5 <;> simp at h
  simp at h1 h3 h4 h5
  refine ⟨by simpa using h1, h2, h3, ?_, h5, rfl⟩
  simpa using h4

/-- When each of the five checks passes, `Register` returns nil. -/
theorem Register_nil_of (ctrl : Controller) (fn : Iface) (name desc : String)
    (h1 : fn.isNil = false) (h2 : name ≠ "") (h3 : fn.isFunction = true)
    (h4 : fn.params.all (fun t => checkType t.Kind) = true)
    (h5 : ctrl.funcs.lookup name = none) :
    (ctrl.Register fn name desc).result = Outcome.ret none := by
  rw [Register_eq]
  simp [h1, h2, h3, h4, h5]

/-! ## The claims -/

/-- C1: `Register` is not a replace operation.  For every controller, every
name that is already a key of its map and every `fn` and `desc`,
`Register(fn, name, desc)` returns a non-nil error and the controller after
the call is the controller before it; in particular the name still maps to
the descriptor it mapped to. -/
theorem Register_not_replace (ctrl : Controller) (fn : Iface) (name desc : String)
    (h : name ∈ ctrl.funcs.keys) :
    (∃ err, (ctrl.Register fn name desc).result = Outcome.ret (some err)) ∧
      (ctrl.Register fn name desc).ctrl = ctrl ∧
      (ctrl.Register fn name desc).ctrl.funcs.lookup name = ctrl.funcs.lookup name := by
  have hl : (ctrl.funcs.lookup name).isSome = true := AList.lookup_isSome.mpr h
  have he : ∃ err, (ctrl.Register fn name desc).result = Outcome.ret (some err) := by
    rw [Register_eq]
    split_ifs <;> exact ⟨_, rfl⟩
  obtain ⟨err, herr⟩ := he
  have hc := Register_error_ctrl ctrl fn name desc err herr
  exact ⟨⟨err, herr⟩, hc, by rw [hc]⟩

/-- C1, at a concrete call: a second registration under "add" on the
controller that already holds "add". -/
theorem Register_not_replace_witness :
    "add" ∈ addController.funcs.keys ∧
      (∃ err, (addController.Register subFn "add" "difference").result =
        Outcome.ret (some err)) ∧
      (addController.Register subFn "add" "difference").ctrl = addController ∧
      (addController.Register subFn "add" "difference").ctrl.funcs.lookup "add" =
        addController.funcs.lookup "add" :=
  ⟨by decide, Register_not_replace addController subFn "add" "difference" (by decide)⟩

/-- C2: rejected registrations are atomic.  For every controller, if `name`
is empty, or `fn` is not a function value, or `fn` is a function with a
parameter whose kind is none of bool, int64, uint64, float64 and string, then
`Register` returns a non-nil error and the map is what it was before the
call. -/
theorem Register_rejected_atomic (ctrl : Controller) (fn : Iface) (name desc : String)
    (h : name = "" ∨ fn.isFunction = false ∨
      (fn.isFunction = true ∧ ∃ t ∈ fn.params, t.Kind ∉ supportedKinds)) :
    (∃ err, (ctrl.Register fn name desc).result = Outcome.ret (some err)) ∧
      (ctrl.Register fn name desc).ctrl.funcs = ctrl.funcs := by
  have he : ∃ err, (ctrl.Register fn name desc).result = Outcome.ret (some err) := by
    rw [Register_eq]
    split_ifs with h1 h2 h3 h4 h5
    · exact ⟨_, rfl⟩
    · exact ⟨_, rfl⟩
    · exact ⟨_, rfl⟩
    · exact ⟨_, rfl⟩
    · exact ⟨_, rfl⟩
    · exfalso
      rcases h with h | h | ⟨_, t, ht, hk⟩
      · exact h2 h
      · exact h3 h
      · have hall : fn.params.all (fun t => checkType t.Kind) = true := by simpa using h4
        exact hk ((all_checkType_iff fn.params).mp hall t ht)
  obtain ⟨err, herr⟩ := he
  exact ⟨⟨err, herr⟩, by rw [Register_error_ctrl ctrl fn name desc err herr]⟩

/-- C2, at a concrete call: registering a function with a slice parameter on
the controller that holds "add". -/
theorem Register_rejected_atomic_witness :
    ("join" = "" ∨ joinFn.isFunction = false ∨
      (joinFn.isFunction = true ∧ ∃ t ∈ joinFn.params, t.Kind ∉ supportedKinds)) ∧
      (∃ err, (addController.Register joinFn "join" "").result = Outcome.ret (some err)) ∧
      (addController.Register joinFn "join" "").ctrl.funcs = addController.funcs :=
  ⟨Or.inr (Or.inr ⟨rfl, stringSliceType, List.Mem.head [], by decide⟩),
    Register_rejected_atomic addController joinFn "join" ""
      (Or.inr (Or.inr ⟨rfl, stringSliceType, List.Mem.head [], by decide⟩))⟩

/-- C3: look-up after `Register` returns the registered descriptor.  For
every controller and every call `Register(fn, name, desc)` that returns nil,
the map after the call maps `name` to a descriptor whose `name` is `name`,
whose `desc` is `desc`, whose `fn` is the value of the `fn` passed, whose `in`
is the list of the parameter types of `fn` in declaration order (as many as
`fn` has parameters) and whose `out` is the list of its result types in
declaration order. -/
theorem Register_lookup (ctrl : Controller) (fn : Iface) (name desc : String)
    (h : (ctrl.Register fn name desc).result = Outcome.ret none) :
    ∃ meta, (ctrl.Register fn name desc).ctrl.funcs.lookup name = some meta ∧
      meta.name = name ∧ meta.desc = desc ∧ meta.fn = reflect.ValueOf fn ∧
      meta.in_ = fn.params ∧ meta.in_.length = fn.params.length ∧
      meta.out = fn.results := by
  obtain ⟨_, _, _, _, _, hc⟩ := Register_nil_inv ctrl fn name desc h
  refine ⟨builtMeta fn name desc, ?_, rfl, rfl, rfl, rfl, rfl, rfl⟩
  rw [hc]
  exact AList.lookup_insert _

/-- C3, at a concrete call: registering "add" on a new controller. -/
theorem Register_lookup_witness :
    (New.Register addFn "add" "sum").result = Outcome.ret none ∧
      ∃ meta, (New.Register addFn "add" "sum").ctrl.funcs.lookup "add" = some meta ∧
        meta.name = "add" ∧ meta.desc = "sum" ∧ meta.fn = reflect.ValueOf addFn ∧
        meta.in_ = addFn.params ∧ meta.in_.length = addFn.params.length ∧
        meta.out = addFn.results :=
  ⟨by rfl, Register_lookup New addFn "add" "sum" (by rfl)⟩

/-- C4: `Register` succeeds exactly when its documented preconditions hold.
For every controller, `Register(fn, name, desc)` returns nil if and only if
`fn` is not nil (the comparison `fn == nil` is false), `name` is not empty,
`fn` is a function, every parameter of `fn` has kind bool, int64, uint64,
float64 or string, and `name` is not a key of the map.  The result types are
unconstrained: two function values with the same parameter types are both
accepted or both rejected, whatever their result types. -/
theorem Register_succeeds_iff (ctrl : Controller) (fn : Iface) (name desc : String) :
    ((ctrl.Register fn name desc).result = Outcome.ret none ↔
      fn.isNil = false ∧ name ≠ "" ∧ fn.isFunction = true ∧
        (∀ t ∈ fn.params, t.Kind ∈ supportedKinds) ∧ name ∉ ctrl.funcs.keys) ∧
    ∀ (nm nm' : String) (ins outs outs' : List RType) (d d' : Option Nat),
      ((ctrl.Register (Iface.val (RType.mk nm Kind.Func ins outs) d) name desc).result =
          Outcome.ret none ↔
        (ctrl.Register (Iface.val (RType.mk nm' Kind.Func ins outs') d') name desc).result =
          Outcome.ret none) := by
  have key : ∀ (fn : Iface), (ctrl.Register fn name desc).result = Outcome.ret none ↔
      fn.isNil = false ∧ name ≠ "" ∧ fn.isFunction = true ∧
        (∀ t ∈ fn.params, t.Kind ∈ supportedKinds) ∧ name ∉ ctrl.funcs.keys := by
    intro fn
    constructor
    · intro h
      obtain ⟨h1, h2, h3, h4, h5, _⟩ := Register_nil_inv ctrl fn name desc h
      exact ⟨h1, h2, h3, (all_checkType_iff _).mp h4, AList.lookup_eq_none.mp h5⟩
    · rintro ⟨h1, h2, h3, h4, h5⟩
      exact Register_nil_of ctrl fn name desc h1 h2 h3 ((all_checkType_iff _).mpr h4)
        (AList.lookup_eq_none.mpr h5)
  refine ⟨key fn, ?_⟩
  intro nm nm' ins outs outs' d d'
  rw [key, key]
  simp [Iface.isNil, Iface.isFunction, Iface.params]

/-- C5, at the failing input: the nil function of type `func(int64) int64`,
passed as `fn`, is nil in the wide sense but does not compare equal to `nil`;
`Register` on a new controller returns nil for it and stores a descriptor
that holds the nil function.  The nil interface itself is rejected with the
controller unchanged. -/
theorem Register_nil_func_accepted :
    nilFn.isNilCallable = true ∧ nilFn.isNil = false ∧
      (New.Register nilFn "f" "").result = Outcome.ret none ∧
      (∃ meta, (New.Register nilFn "f" "").ctrl.funcs.lookup "f" = some meta ∧
        meta.fn.holdsNilFunc = true) ∧
      ∀ (ctrl : Controller) (name desc : String),
        (ctrl.Register Iface.nil name desc).result =
            Outcome.ret (some (genErrFunc "Register" "fn must not be nil")) ∧
          (ctrl.Register Iface.nil name desc).ctrl = ctrl :=
  ⟨rfl, rfl, by rfl, ⟨builtMeta nilFn "f" "", by rfl, rfl⟩,
    fun _ _ _ => ⟨rfl, rfl⟩⟩

/-- Some parameter has an unsupported kind exactly when not all parameters
pass `checkType`. -/
theorem any_unsupported_iff (ins : List RType) :
    ins.any (fun t => decide (t.Kind ∉ supportedKinds)) = true ↔
      ins.all (fun t => checkType t.Kind) = false := by
  induction ins with
  | nil => simp
  | cons t ts ih =>
    by_cases hc : checkType t.Kind = true
    · have hm : t.Kind ∈ supportedKinds := (checkType_eq_true_iff _).mp hc
      simp only [List.any_cons, List.all_cons, hc, hm, not_true_eq_false, decide_False,
        Bool.false_or, Bool.true_and]
      exact ih
    · have hm : t.Kind ∉ supportedKinds := fun hm => hc ((checkType_eq_true_iff _).mpr hm)
      simp only [Bool.not_eq_true] at hc
      simp [hc, hm]

/-- The message that the specification's order of conditions selects, as a
cascade. -/
theorem firstViolation_eq (ctrl : Controller) (fn : Iface) (name : String) :
    firstViolation ctrl fn name =
      if fn.isNil = true then some "fn must not be nil"
      else if name = "" then some "name must not be empty"
      else if fn.isFunction = false then some "fn is not a function"
      else if fn.params.all (fun t => checkType t.Kind) = false then some paramTypeMsg
      else if (ctrl.funcs.lookup name).isSome = true then some (registeredMsg name)
      else none := by
  have hp : paramTypeMsg =
      "supported parameter types are bool, int64, uint64, float64 and string" := by decide
  have hany := any_unsupported_iff fn.params
  have hl : (ctrl.funcs.lookup name).isSome = true ↔ name ∈ ctrl.funcs.keys :=
    AList.lookup_isSome
  by_cases h1 : fn.isNil = true
  · simp [firstViolation, registerConditions, h1]
  · by_cases h2 : name = ""
    · simp [firstViolation, registerConditions, h1, h2]
    · by_cases h3 : fn.isFunction = false
      · simp [firstViolation, registerConditions, List.find?, h1, h2, h3]
      · by_cases h4 : fn.params.all (fun t => checkType t.Kind) = false
        · have h4a := hany.mpr h4
          simp only [firstViolation, registerConditions, List.find?, h1, h2, h3, h4, h4a, hp,
            decide_False, Bool.not_eq_true, Bool.not_false, if_true, if_false, Option.map]
          simp only [Bool.not_eq_false] at h3
          simp [h3]
        · have h4a : ¬ fn.params.any (fun t => decide (t.Kind ∉ supportedKinds)) = true :=
            fun h => h4 (hany.mp h)
          simp only [Bool.not_eq_false] at h3
          simp only [Bool.not_eq_true] at h1 h4a
          have h4b : (fn.params.any fun t => !decide (t.Kind ∈ supportedKinds)) = false := by
            rw [← h4a]
            congr 1
            funext t
            simp
          by_cases h5 : (ctrl.funcs.lookup name).isSome = true
          · have h5a := hl.mp h5
            simp [firstViolation, registerConditions, List.find?, h1, h2, h3, h4, h4b, h5, h5a,
              registeredMsg]
          · have h5a : name ∉ ctrl.funcs.keys := fun h => h5 (hl.mpr h)
            simp [firstViolation, registerConditions, List.find?, h1, h2, h3, h4, h4b, h5, h5a]

/-- C6: the error names the first offending condition.  With the conditions
in the order (1) `fn` is nil, (2) `name` is empty, (3) `fn` is not a function,
(4) some parameter kind is unsupported, (5) `name` is already registered, each
with its message, every call of `Register` returns the error made by
`genErrFunc("Register")` from the message of the earliest violated condition,
and returns nil when no condition is violated; so no later condition's
message is produced when an earlier condition is violated. -/
theorem Register_first_violation (ctrl : Controller) (fn : Iface) (name desc : String) :
    (ctrl.Register fn name desc).result =
      Outcome.ret ((firstViolation ctrl fn name).map (genErrFunc "Register")) := by
  rw [Register_eq, firstViolation_eq]
  split_ifs <;> rfl

/-- C7: `checkType` accepts exactly the five supported scalar kinds.  For
every kind `k`, `checkType k` is true if and only if `k` is one of `Bool`,
`Int64`, `Uint64`, `Float64`, `String`; it is false for every other kind. -/
theorem checkType_five_kinds :
    (∀ k : Kind, checkType k = true ↔
      k = Kind.Bool ∨ k = Kind.Int64 ∨ k = Kind.Uint64 ∨ k = Kind.Float64 ∨ k = Kind.String) ∧
    (∀ k ∈ [Kind.Int, Kind.Int8, Kind.Int16, Kind.Int32, Kind.Uint, Kind.Uint8, Kind.Uint16,
        Kind.Uint32, Kind.Uintptr, Kind.Float32, Kind.Complex64, Kind.Complex128, Kind.Array,
        Kind.Chan, Kind.Func, Kind.Interface, Kind.Map, Kind.Ptr, Kind.Slice, Kind.Struct,
        Kind.UnsafePointer, Kind.Invalid], checkType k = false) := by
  constructor
  · intro k
    cases k <;> simp [checkType]
  · decide

/-- `MustRegister` leaves the controller that `Register` leaves. -/
theorem MustRegister_ctrl (ctrl : Controller) (fn : Iface) (name desc : String) :
    (ctrl.MustRegister fn name desc).ctrl = (ctrl.Register fn name desc).ctrl := by
  simp only [Controller.MustRegister]
  split <;> rfl

/-- A call of `Register` preserves the invariant of the registry. -/
theorem Register_preserves_invariant (ctrl : Controller) (fn : Iface) (name desc : String)
    (hinv : RegistryInvariant ctrl) :
    RegistryInvariant (ctrl.Register fn name desc).ctrl := by
  obtain ⟨err, herr⟩ := Register_result_ret ctrl fn name desc
  cases err with
  | some e => rw [Register_error_ctrl ctrl fn name desc e herr]; exact hinv
  | none =>
    obtain ⟨_, h2, _, h4, _, hc⟩ := Register_nil_inv ctrl fn name desc herr
    rw [hc]
    intro key meta hk
    by_cases hkey : key = name
    · subst hkey
      rw [AList.lookup_insert] at hk
      cases hk
      exact ⟨h2, rfl, fun t ht => (List.all_eq_true.mp h4) t ht⟩
    · rw [AList.lookup_insert_ne hkey] at hk
      exact hinv key meta hk

/-- Every reachable controller satisfies the invariant of the registry. -/
theorem Reachable_invariant (ctrl : Controller) (h : Reachable ctrl) :
    RegistryInvariant ctrl := by
  induction h with
  | new =>
    intro key meta hk
    simp [New] at hk
  | register c fn name desc _ ih => exact Register_preserves_invariant c fn name desc ih
  | mustRegister c fn name desc _ _ ih =>
    rw [MustRegister_ctrl]
    exact Register_preserves_invariant c fn name desc ih

/-- C8: the registry invariant.  `New` returns a controller whose map has no
entries, and in every controller reachable from `New` by finitely many calls
of `Register` and of `MustRegister` that do not panic, the keys are pairwise
distinct and every entry `key -> descriptor` has a non-empty key, a descriptor
whose `name` is the key, and parameter types whose kinds are all accepted by
`checkType`, that is, are among bool, int64, uint64, float64 and string. -/
theorem registry_invariant (ctrl : Controller) (h : Reachable ctrl) :
    New.funcs.entries = [] ∧ ctrl.funcs.keys.Nodup ∧
      ∀ (key : String) (meta : funcMeta), ctrl.funcs.lookup key = some meta →
        key ≠ "" ∧ meta.name = key ∧
          ∀ t ∈ meta.in_, checkType t.Kind = true ∧ t.Kind ∈ supportedKinds := by
  refine ⟨rfl, ctrl.funcs.keys_nodup, ?_⟩
  intro key meta hk
  obtain ⟨h1, h2, h3⟩ := Reachable_invariant ctrl h key meta hk
  exact ⟨h1, h2, fun t ht => ⟨h3 t ht, (checkType_eq_true_iff _).mp (h3 t ht)⟩⟩

/-- C8, at a concrete controller: the one reached by registering "add". -/
theorem registry_invariant_witness :
    Reachable addController ∧ New.funcs.entries = [] ∧ addController.funcs.keys.Nodup ∧
      ∀ (key : String) (meta : funcMeta), addController.funcs.lookup key = some meta →
        key ≠ "" ∧ meta.name = key ∧
          ∀ t ∈ meta.in_, checkType t.Kind = true ∧ t.Kind ∈ supportedKinds :=
  ⟨Reachable.register New addFn "add" "sum" Reachable.new,
    registry_invariant addController (Reachable.register New addFn "add" "sum" Reachable.new)⟩

/-- C9: the registry only grows and existing descriptors are immutable.  For
every controller and every call `Register(fn, name, desc)`: every key present
before the call is present after it with the same descriptor; when the call
returns nil, `name` was not a key and the keys after the call are the keys
before it and `name`, one more than before; when the call returns an error
the keys are unchanged.  Hence registering valid functions under two distinct
fresh names succeeds both times and both descriptors are found afterwards. -/
theorem Register_only_grows (ctrl : Controller) (fn : Iface) (name desc : String) :
    (∀ (key : String) (meta : funcMeta), ctrl.funcs.lookup key = some meta →
        (ctrl.Register fn name desc).ctrl.funcs.lookup key = some meta) ∧
    ((ctrl.Register fn name desc).result = Outcome.ret none →
        name ∉ ctrl.funcs.keys ∧
        (∀ key : String, key ∈ (ctrl.Register fn name desc).ctrl.funcs.keys ↔
          key = name ∨ key ∈ ctrl.funcs.keys) ∧
        (ctrl.Register fn name desc).ctrl.funcs.keys.length = ctrl.funcs.keys.length + 1) ∧
    (∀ err : GctrlError, (ctrl.Register fn name desc).result = Outcome.ret (some err) →
        (ctrl.Register fn name desc).ctrl.funcs.keys = ctrl.funcs.keys) ∧
    (∀ (g : Iface) (name2 desc2 : String),
        fn.isNil = false → fn.isFunction = true →
        (∀ t ∈ fn.params, t.Kind ∈ supportedKinds) →
        g.isNil = false → g.isFunction = true →
        (∀ t ∈ g.params, t.Kind ∈ supportedKinds) →
        name ≠ "" → name2 ≠ "" → name ≠ name2 →
        name ∉ ctrl.funcs.keys → name2 ∉ ctrl.funcs.keys →
        (ctrl.Register fn name desc).result = Outcome.ret none ∧
        ((ctrl.Register fn name desc).ctrl.Register g name2 desc2).result = Outcome.ret none ∧
        ((ctrl.Register fn name desc).ctrl.Register g name2 desc2).ctrl.funcs.lookup name =
          some (builtMeta fn name desc) ∧
        ((ctrl.Register fn name desc).ctrl.Register g name2 desc2).ctrl.funcs.lookup name2 =
          some (builtMeta g name2 desc2)) := by
  refine ⟨?_, ?_, ?_, ?_⟩
  · intro key meta hk
    obtain ⟨err, herr⟩ := Register_result_ret ctrl fn name desc
    cases err with
    | some e => rw [Register_error_ctrl ctrl fn name desc e herr]; exact hk
    | none =>
      obtain ⟨_, _, _, _, h5, hc⟩ := Register_nil_inv ctrl fn name desc herr
      have hne : key ≠ name := by
        intro heq
        rw [heq, h5] at hk
        cases hk
      rw [hc]
      show AList.lookup key (AList.insert name (builtMeta fn name desc) ctrl.funcs) = some meta
      rw [AList.lookup_insert_ne hne]
      exact hk
  · intro h
    obtain ⟨_, _, _, _, h5, hc⟩ := Register_nil_inv ctrl fn name desc h
    have hnot : name ∉ ctrl.funcs.keys := AList.lookup_eq_none.mp h5
    rw [hc]
    refine ⟨hnot, ?_, ?_⟩
    · intro key
      exact AList.mem_insert ctrl.funcs
    · show (AList.insert name (builtMeta fn name desc) ctrl.funcs).keys.length = _
      rw [AList.keys_insert, List.erase_of_not_mem hnot, List.length_cons]
  · intro err herr
    rw [Register_error_ctrl ctrl fn name desc err herr]
  · intro g name2 desc2 f1 f2 f3 g1 g2 g3 n1 n2 hne hf1 hf2
    have r1 : (ctrl.Register fn name desc).result = Outcome.ret none :=
      Register_nil_of ctrl fn name desc f1 n1 f2 ((all_checkType_iff _).mpr f3)
        (AList.lookup_eq_none.mpr hf1)
    obtain ⟨_, _, _, _, _, hc1⟩ := Register_nil_inv ctrl fn name desc r1
    have hfresh : (ctrl.Register fn name desc).ctrl.funcs.lookup name2 = none := by
      rw [hc1]
      show AList.lookup name2 (AList.insert name (builtMeta fn name desc) ctrl.funcs) = none
      rw [AList.lookup_insert_ne (Ne.symm hne)]
      exact AList.lookup_eq_none.mpr hf2
    have r2 : ((ctrl.Register fn name desc).ctrl.Register g name2 desc2).result =
        Outcome.ret none :=
      Register_nil_of _ g name2 desc2 g1 n2 g2 ((all_checkType_iff _).mpr g3) hfresh
    obtain ⟨_, _, _, _, _, hc2⟩ := Register_nil_inv _ g name2 desc2 r2
    refine ⟨r1, r2, ?_, ?_⟩
    · rw [hc2, hc1]
      show AList.lookup name (AList.insert name2 (builtMeta g name2 desc2)
        (AList.insert name (builtMeta fn name desc) ctrl.funcs)) = _
      rw [AList.lookup_insert_ne hne, AList.lookup_insert]
    · rw [hc2]
      exact AList.lookup_insert _

/-- C10: `MustRegister` performs the validation of `Register` and differs only
in how failure is reported.  For every controller and every `fn`, `name` and
`desc`: `MustRegister` panics if and only if `Register` on the same controller
and arguments returns a non-nil error; the value it panics with is that
error; it returns normally when `Register` returns nil; and in both cases the
controller after `MustRegister` is the controller after `Register`. -/
theorem MustRegister_as_Register (ctrl : Controller) (fn : Iface) (name desc : String) :
    ((∃ v, (ctrl.MustRegister fn name desc).result = Outcome.panic v) ↔
        ∃ err, (ctrl.Register fn name desc).result = Outcome.ret (some err)) ∧
    (∀ err : GctrlError, (ctrl.Register fn name desc).result = Outcome.ret (some err) ↔
        (ctrl.MustRegister fn name desc).result = Outcome.panic (PanicValue.error err)) ∧
    ((ctrl.Register fn name desc).result = Outcome.ret none ↔
        (ctrl.MustRegister fn name desc).result = Outcome.ret ()) ∧
    (ctrl.MustRegister fn name desc).ctrl = (ctrl.Register fn name desc).ctrl := by
  obtain ⟨err, herr⟩ := Register_result_ret ctrl fn name desc
  refine ⟨?_, ?_, ?_, MustRegister_ctrl ctrl fn name desc⟩
  · cases err with
    | some e => simp [Controller.MustRegister, herr]
    | none => simp [Controller.MustRegister, herr]
  · intro e
    cases err with
    | some e2 =>
      simp only [Controller.MustRegister, herr]
      constructor
      · intro h
        cases h
        rfl
      · intro h
        cases h
        rfl
    | none => simp [Controller.MustRegister, herr]
  · cases err with
    | some e => simp [Controller.MustRegister, herr]
    | none => simp [Controller.MustRegister, herr]

/-! ## `Serve` in closed form -/

/-- The events of the loop of `Serve`: for each text whose trimmed form is not
empty, in order, `RLock`, the handler and `RUnlock`. -/
theorem Serve_loop_eq (builtin : String → Bool) (texts : List String) :
    Controller.Serve.loop builtin texts =
      ((texts.map strings.TrimSpace).filter (fun cmd => decide (cmd ≠ ""))).flatMap
        (fun cmd => [Event.RLock, dispatch builtin cmd, Event.RUnlock]) := by
  induction texts with
  | nil => rfl
  | cons text more ih =>
    by_cases hc : strings.TrimSpace text = ""
    · simp [Controller.Serve.loop, hc, ih]
    · simp [Controller.Serve.loop, hc, ih, dispatch]

/-- On a stream without a line of `MaxScanTokenSize` bytes or more the scanner
yields the text of every line and ends with what ended the stream. -/
theorem scan_of_short (rest : String) (err : Option String) (errWithData : Bool)
    (lines : List String)
    (h : ∀ raw ∈ lines ++ (if rest = "" then [] else [rest]),
      raw.utf8ByteSize < bufio.MaxScanTokenSize) :
    bufio.Scanner.scan rest err errWithData lines =
      ((lines ++ (if rest = "" then [] else [rest])).map bufio.dropCR,
        err.map ScanError.readError) := by
  induction lines with
  | nil =>
    by_cases hr : rest = ""
    · simp [bufio.Scanner.scan, hr]
    · have hlt : rest.utf8ByteSize < bufio.MaxScanTokenSize := h rest (by simp [hr])
      simp [bufio.Scanner.scan, hr, hlt]
  | cons raw more ih =>
    have hlt : raw.utf8ByteSize < bufio.MaxScanTokenSize := h raw (by simp)
    have hnot : ¬ bufio.MaxScanTokenSize ≤ raw.utf8ByteSize := by omega
    have ih2 := ih (fun l hl => h l (by
      rw [List.cons_append]
      exact List.mem_cons_of_mem _ hl))
    simp [bufio.Scanner.scan, hnot, ih2]

/-- The scanner ends with what ended the stream, or with `ErrTooLong`, and
then some line of the stream has `MaxScanTokenSize` bytes or more. -/
theorem scan_err_cases (rest : String) (err : Option String) (errWithData : Bool)
    (lines : List String) :
    (bufio.Scanner.scan rest err errWithData lines).2 = err.map ScanError.readError ∨
      ((bufio.Scanner.scan rest err errWithData lines).2 = some ScanError.ErrTooLong ∧
        ∃ raw ∈ lines ++ (if rest = "" then [] else [rest]),
          bufio.MaxScanTokenSize ≤ raw.utf8ByteSize) := by
  induction lines with
  | nil =>
    by_cases hr : rest = ""
    · simp [bufio.Scanner.scan, hr]
    · by_cases hy : rest.utf8ByteSize < bufio.MaxScanTokenSize ∨
          (rest.utf8ByteSize = bufio.MaxScanTokenSize ∧ errWithData = true)
      · left
        simp only [bufio.Scanner.scan, hr, hy, if_true, if_false]
      · right
        have hge : bufio.MaxScanTokenSize ≤ rest.utf8ByteSize := by
          by_contra hlt
          exact hy (Or.inl (by omega))
        simp only [bufio.Scanner.scan, hr, hy, if_false]
        exact ⟨trivial, rest, by simp, hge⟩
  | cons raw more ih =>
    by_cases hlong : bufio.MaxScanTokenSize ≤ raw.utf8ByteSize
    · right
      simp only [bufio.Scanner.scan, hlong, if_true]
      exact ⟨trivial, raw, by simp, hlong⟩
    · simp only [bufio.Scanner.scan, hlong, if_false]
      rcases ih with h | ⟨h, l, hl, hlen⟩
      · exact Or.inl h
      · exact Or.inr ⟨h, l, by
          rw [List.cons_append]
          exact List.mem_cons_of_mem _ hl, hlen⟩

/-- The events of `Serve`, by the texts the scanner yields. -/
theorem Serve_trace (builtin : String → Bool) (ctrl : Controller) (rw : Stream) :
    (Controller.Serve builtin ctrl rw).trace =
      Event.prompt ::
        ((((bufio.Scanner.scan rw.rest rw.err rw.errWithData rw.lines).1.map
            strings.TrimSpace).filter (fun cmd => decide (cmd ≠ ""))).flatMap
          (fun cmd => [Event.RLock, dispatch builtin cmd, Event.RUnlock])) := by
  simp [Controller.Serve, Serve_loop_eq]

/-- The events of `Serve` on a stream without a line of `MaxScanTokenSize`
bytes or more. -/
theorem Serve_trace_of_short (builtin : String → Bool) (ctrl : Controller) (rw : Stream)
    (h : ∀ raw ∈ rw.allLines, raw.utf8ByteSize < bufio.MaxScanTokenSize) :
    (Controller.Serve builtin ctrl rw).trace =
      Event.prompt :: (commands rw.allLines).flatMap
        (fun cmd => [Event.RLock, dispatch builtin cmd, Event.RUnlock]) := by
  rw [Serve_trace, scan_of_short rw.rest rw.err rw.errWithData rw.lines h]
  simp [commands, lineText, Stream.allLines, List.map_map, Function.comp_def]

/-- The value `Serve` returns on a stream without a line of
`MaxScanTokenSize` bytes or more. -/
theorem Serve_result_of_short (builtin : String → Bool) (ctrl : Controller) (rw : Stream)
    (h : ∀ raw ∈ rw.allLines, raw.utf8ByteSize < bufio.MaxScanTokenSize) :
    (Controller.Serve builtin ctrl rw).result =
      Outcome.ret (rw.err.map ScanError.readError) := by
  simp [Controller.Serve, scan_of_short rw.rest rw.err rw.errWithData rw.lines h]

/-- The handler invocations among the events of dispatched commands. -/
theorem filter_isHandler_dispatched (builtin : String → Bool) (cmds : List String) :
    (cmds.flatMap (fun cmd => [Event.RLock, dispatch builtin cmd, Event.RUnlock])).filter
        Event.isHandler = cmds.map (dispatch builtin) := by
  induction cmds with
  | nil => rfl
  | cons cmd rest ih =>
    have hd : (dispatch builtin cmd).isHandler = true := by
      unfold dispatch
      split <;> rfl
    have h1 : Event.RLock.isHandler = false := rfl
    have h2 : Event.RUnlock.isHandler = false := rfl
    simp [List.flatMap_cons, List.filter_cons, hd, h1, h2, ih]

/-- Membership in the events of dispatched commands. -/
theorem mem_dispatched (builtin : String → Bool) (cmds : List String) (e : Event) :
    e ∈ cmds.flatMap (fun cmd => [Event.RLock, dispatch builtin cmd, Event.RUnlock]) ↔
      cmds ≠ [] ∧ (e = Event.RLock ∨ e = Event.RUnlock) ∨ ∃ cmd ∈ cmds, e = dispatch builtin cmd := by
  induction cmds with
  | nil => simp
  | cons cmd rest ih =>
    simp only [List.flatMap_cons, List.mem_append, ih, List.mem_cons, List.mem_singleton,
      List.not_mem_nil, or_false, ne_eq, not_false_eq_true, true_and, exists_eq_or_imp,
      reduceCtorEq]
    tauto

/-- A handler that `Serve` invokes gets a command whose classification chose
it. -/
theorem Serve_handler_mem (builtin : String → Bool) (ctrl : Controller) (rw : Stream)
    (cmd : String) :
    (Event.handleBuiltin cmd ∈ (Controller.Serve builtin ctrl rw).trace →
        builtin cmd = true ∧
          cmd ∈ ((bufio.Scanner.scan rw.rest rw.err rw.errWithData rw.lines).1.map
            strings.TrimSpace).filter (fun c => decide (c ≠ ""))) ∧
      (Event.handleFuncCall cmd ∈ (Controller.Serve builtin ctrl rw).trace →
        builtin cmd = false ∧
          cmd ∈ ((bufio.Scanner.scan rw.rest rw.err rw.errWithData rw.lines).1.map
            strings.TrimSpace).filter (fun c => decide (c ≠ ""))) := by
  constructor
  · intro hmem
    rw [Serve_trace, List.mem_cons, mem_dispatched] at hmem
    rcases hmem with h | ⟨_, h | h⟩ | ⟨c, hc, h⟩
    · cases h
    · cases h
    · cases h
    · unfold dispatch at h
      split at h
      · cases h
        exact ⟨by assumption, hc⟩
      · cases h
  · intro hmem
    rw [Serve_trace, List.mem_cons, mem_dispatched] at hmem
    rcases hmem with h | ⟨_, h | h⟩ | ⟨c, hc, h⟩
    · cases h
    · cases h
    · cases h
    · unfold dispatch at h
      split at h
      · cases h
      · cases h
        exact ⟨by simpa using ‹¬ builtin cmd = true›, hc⟩

/-! ## `strings.TrimSpace` -/

/-- Trimming at both ends leaves nothing exactly when every element is
trimmed. -/
theorem trim_eq_nil_iff {α : Type} (p : α → Bool) (l : List α) :
    ((l.dropWhile p).reverse.dropWhile p).reverse = [] ↔ ∀ x ∈ l, p x = true := by
  rw [List.reverse_eq_nil_iff, List.dropWhile_eq_nil_iff]
  constructor
  · intro h
    by_contra hne
    have hd : l.dropWhile p ≠ [] := by rwa [ne_eq, List.dropWhile_eq_nil_iff]
    have hh := List.head_dropWhile_not p l hd
    have hm := h ((l.dropWhile p).head hd) (List.mem_reverse.mpr (List.head_mem hd))
    rw [hh] at hm
    cases hm
  · intro h
    have hnil : l.dropWhile p = [] := List.dropWhile_eq_nil_iff.mpr h
    simp [hnil]

/-- After trimming at both ends neither the first nor the last element is one
that is trimmed. -/
theorem trim_head_last {α : Type} (p : α → Bool) (l : List α) :
    (∀ c, ((l.dropWhile p).reverse.dropWhile p).reverse.head? = some c → p c = false) ∧
      (∀ c, ((l.dropWhile p).reverse.dropWhile p).reverse.getLast? = some c → p c = false) := by
  constructor
  · intro c hc
    rw [List.head?_reverse] at hc
    have hr : (l.dropWhile p).reverse.dropWhile p ≠ [] := by
      intro h
      rw [h] at hc
      cases hc
    have hsuf : (l.dropWhile p).reverse.dropWhile p <:+ (l.dropWhile p).reverse :=
      List.dropWhile_suffix p
    have hlast := hsuf.getLast hr
    rw [List.getLast?_eq_getLast _ hr, hlast] at hc
    have hne : l.dropWhile p ≠ [] := by
      intro h
      exact hsuf.ne_nil hr (by simp [h])
    rw [List.getLast_reverse] at hc
    have hh := List.head_dropWhile_not p l hne
    cases hc
    exact hh
  · intro c hc
    rw [List.getLast?_reverse] at hc
    have hh := List.head?_dropWhile_not p (l.dropWhile p).reverse
    rw [hc] at hh
    exact hh

/-- The trimmed text is empty exactly when the text is white space only. -/
theorem TrimSpace_eq_empty_iff (s : String) :
    strings.TrimSpace s = "" ↔ ∀ c ∈ s.data, unicode.IsSpace c = true := by
  rw [← trim_eq_nil_iff unicode.IsSpace s.data]
  unfold strings.TrimSpace
  constructor
  · intro h
    have := congrArg String.data h
    simpa using this
  · intro h
    rw [h]

/-- The commands of a list of lines are not empty and neither begin nor end
with white space. -/
theorem commands_trimmed (lines : List String) (cmd : String) (h : cmd ∈ commands lines) :
    cmd ≠ "" ∧ (∀ c, cmd.data.head? = some c → unicode.IsSpace c = false) ∧
      (∀ c, cmd.data.getLast? = some c → unicode.IsSpace c = false) := by
  unfold commands at h
  rw [List.mem_filter, List.mem_map] at h
  obtain ⟨⟨raw, _, hraw⟩, hne⟩ := h
  refine ⟨by simpa using hne, ?_⟩
  rw [← hraw]
  exact trim_head_last unicode.IsSpace (lineText raw).data

/-- A line whose text is white space only contributes no command. -/
theorem commands_skip_blank (pre post : List String) (raw : String)
    (hblank : ∀ c ∈ (lineText raw).data, unicode.IsSpace c = true) :
    commands (pre ++ raw :: post) = commands pre ++ commands post := by
  have he : strings.TrimSpace (lineText raw) = "" := (TrimSpace_eq_empty_iff _).mpr hblank
  simp [commands, he]

/-- A command `Serve` dispatches is not empty and neither begins nor ends
with white space. -/
theorem trimmed_of_mem (texts : List String) (cmd : String)
    (h : cmd ∈ (texts.map strings.TrimSpace).filter (fun c => decide (c ≠ ""))) :
    cmd ≠ "" ∧ (∀ c, cmd.data.head? = some c → unicode.IsSpace c = false) ∧
      (∀ c, cmd.data.getLast? = some c → unicode.IsSpace c = false) := by
  rw [List.mem_filter, List.mem_map] at h
  obtain ⟨⟨text, _, htext⟩, hne⟩ := h
  refine ⟨by simpa using hne, ?_⟩
  rw [← htext]
  exact trim_head_last unicode.IsSpace text.data

/-! ## Lines of 64 KiB -/

/-- The size in bytes of a string of `n` copies of a character of one
byte. -/
theorem utf8ByteSize_replicate (c : Char) (hc : c.utf8Size = 1) (n : Nat) :
    (String.mk (List.replicate n c)).utf8ByteSize = n := by
  have key : ∀ m, String.utf8ByteSize.go (List.replicate m c) = m := by
    intro m
    induction m with
    | zero => rfl
    | succ m ih => rw [List.replicate_succ, String.utf8ByteSize.go, ih, hc]
  exact key n

/-- The sample long line has `MaxScanTokenSize` bytes. -/
theorem longLine_size : longLine.utf8ByteSize = bufio.MaxScanTokenSize := by
  unfold longLine
  exact utf8ByteSize_replicate _ (by decide) _

/-- The sample line of spaces has `MaxScanTokenSize` bytes. -/
theorem blankLongLine_size : blankLongLine.utf8ByteSize = bufio.MaxScanTokenSize := by
  unfold blankLongLine
  exact utf8ByteSize_replicate _ (by decide) _

/-- The scanner stops at a first line of `MaxScanTokenSize` bytes or more
that ends with a line feed. -/
theorem scan_long_first (rest : String) (err : Option String) (errWithData : Bool)
    (raw : String) (more : List String) (h : bufio.MaxScanTokenSize ≤ raw.utf8ByteSize) :
    bufio.Scanner.scan rest err errWithData (raw :: more) = ([], some ScanError.ErrTooLong) := by
  simp [bufio.Scanner.scan, h]

/-- `Serve` on a stream whose first line has `MaxScanTokenSize` bytes or more
and ends with a line feed: no event after `prompt`, and `ErrTooLong`. -/
theorem Serve_long_first (builtin : String → Bool) (ctrl : Controller) (raw rest : String)
    (more : List String) (err : Option String) (errWithData : Bool)
    (h : bufio.MaxScanTokenSize ≤ raw.utf8ByteSize) :
    (Controller.Serve builtin ctrl
        { lines := raw :: more, rest := rest, err := err, errWithData := errWithData }).trace =
        [Event.prompt] ∧
      (Controller.Serve builtin ctrl
        { lines := raw :: more, rest := rest, err := err, errWithData := errWithData }).result =
        Outcome.ret (some ScanError.ErrTooLong) := by
  simp [Controller.Serve, scan_long_first rest err errWithData raw more h, Controller.Serve.loop]

/-- The scanner yields a last line without a line feed that fills the buffer
exactly when the end of input arrives with its last bytes, and `Serve` then
returns nil; when the end of input arrives alone, `Serve` returns
`ErrTooLong`. -/
theorem Serve_full_buffer_rest (builtin : String → Bool) (ctrl : Controller) :
    (bufio.Scanner.scan longLine none true []).1 = [bufio.dropCR longLine] ∧
      (Controller.Serve builtin ctrl fullBufferStream).result = Outcome.ret none ∧
      (Controller.Serve builtin ctrl
        { lines := [], rest := longLine, err := none, errWithData := false }).result =
        Outcome.ret (some ScanError.ErrTooLong) := by
  have hne : longLine ≠ "" := by
    intro h
    have hs := longLine_size
    rw [h] at hs
    exact absurd hs (by decide)
  have hsz := longLine_size
  refine ⟨?_, ?_, ?_⟩
  · simp [bufio.Scanner.scan, hne, hsz]
  · simp [Controller.Serve, fullBufferStream, bufio.Scanner.scan, hne, hsz]
  · simp [Controller.Serve, bufio.Scanner.scan, hne, hsz]

/-! ## The claims on `Serve` -/

/-- C11, refuted as stated: on the stream of a line of 64 KiB followed by the
line "list", the trimmed text "list" of the second line is not empty and is
classified as builtin, yet `Serve` hands it to no handler. -/
theorem Serve_long_line_hides_list :
    "list" ∈ commands longThenListStream.allLines ∧ sampleBuiltin "list" = true ∧
      Event.handleBuiltin "list" ∉ (Controller.Serve sampleBuiltin New longThenListStream).trace ∧
      Event.handleFuncCall "list" ∉
        (Controller.Serve sampleBuiltin New longThenListStream).trace := by
  have ht := (Serve_long_first sampleBuiltin New longLine "" ["list"] none false
    (Nat.le_of_eq longLine_size.symm)).1
  have ht2 : (Controller.Serve sampleBuiltin New longThenListStream).trace = [Event.prompt] := ht
  refine ⟨?_, by decide, ?_, ?_⟩
  · unfold commands
    rw [List.mem_filter, List.mem_map]
    exact ⟨⟨"list", by simp [Stream.allLines, longThenListStream], by decide⟩, by decide⟩
  · rw [ht2]
    simp
  · rw [ht2]
    simp

/-- C11, amended: meta-commands take priority and every non-empty line is
dispatched exactly once.  For every input stream whose lines are all shorter
than `bufio.MaxScanTokenSize` (64 KiB), the handler invocations of `Serve`
are, in the order of the lines, one per line whose trimmed text `cmd` is not
empty, with `cmd` as argument: `handleBuiltin` when `builtin(cmd)` is true and
`handleFuncCall` otherwise.  On every stream a command classified as builtin
is never passed to `handleFuncCall`, whatever is registered, nor one not so
classified to `handleBuiltin`, and the events do not depend on the
controller. -/
theorem Serve_dispatches_once (builtin : String → Bool) (ctrl : Controller) (rw : Stream)
    (hlim : ∀ raw ∈ rw.allLines, raw.utf8ByteSize < bufio.MaxScanTokenSize) :
    (Controller.Serve builtin ctrl rw).trace.filter Event.isHandler =
        (commands rw.allLines).map
          (fun cmd => if builtin cmd = true then Event.handleBuiltin cmd
            else Event.handleFuncCall cmd) ∧
      (∀ (rw2 : Stream) (cmd : String), builtin cmd = true →
        Event.handleFuncCall cmd ∉ (Controller.Serve builtin ctrl rw2).trace) ∧
      (∀ (rw2 : Stream) (cmd : String), builtin cmd = false →
        Event.handleBuiltin cmd ∉ (Controller.Serve builtin ctrl rw2).trace) ∧
      (∀ (rw2 : Stream) (ctrl2 : Controller),
        (Controller.Serve builtin ctrl2 rw2).trace = (Controller.Serve builtin ctrl rw2).trace) := by
  refine ⟨?_, ?_, ?_, ?_⟩
  · rw [Serve_trace_of_short builtin ctrl rw hlim, List.filter_cons]
    simp only [Event.isHandler, Bool.false_eq_true, if_false]
    rw [filter_isHandler_dispatched]
    rfl
  · intro rw2 cmd hb hmem
    have h := ((Serve_handler_mem builtin ctrl rw2 cmd).2 hmem).1
    rw [hb] at h
    cases h
  · intro rw2 cmd hb hmem
    have h := ((Serve_handler_mem builtin ctrl rw2 cmd).1 hmem).1
    rw [hb] at h
    cases h
  · intro rw2 ctrl2
    rw [Serve_trace, Serve_trace]

/-- C11, amended, at a concrete stream: three short lines and a last line
without a line feed. -/
theorem Serve_dispatches_once_witness :
    (∀ raw ∈ shortStream.allLines, raw.utf8ByteSize < bufio.MaxScanTokenSize) ∧
      (Controller.Serve sampleBuiltin addController shortStream).trace.filter Event.isHandler =
        (commands shortStream.allLines).map
          (fun cmd => if sampleBuiltin cmd = true then Event.handleBuiltin cmd
            else Event.handleFuncCall cmd) ∧
      (Controller.Serve sampleBuiltin addController shortStream).trace.filter Event.isHandler =
        [Event.handleBuiltin "help", Event.handleFuncCall "add 1 2", Event.handleBuiltin "list"] :=
  ⟨by decide, (Serve_dispatches_once sampleBuiltin addController shortStream (by decide)).1,
    by decide⟩

/-- The loop of `Serve` has no event for a line that ends with a line feed,
is shorter than `MaxScanTokenSize` and whose text is white space only, and the
scanner goes on after it. -/
theorem Serve_skip_line (builtin : String → Bool) (rest : String) (err : Option String)
    (errWithData : Bool) (pre post : List String) (raw : String)
    (hraw : raw.utf8ByteSize < bufio.MaxScanTokenSize)
    (hblank : ∀ c ∈ (lineText raw).data, unicode.IsSpace c = true) :
    Controller.Serve.loop builtin
        (bufio.Scanner.scan rest err errWithData (pre ++ raw :: post)).1 =
        Controller.Serve.loop builtin (bufio.Scanner.scan rest err errWithData (pre ++ post)).1 ∧
      (bufio.Scanner.scan rest err errWithData (pre ++ raw :: post)).2 =
        (bufio.Scanner.scan rest err errWithData (pre ++ post)).2 := by
  have he : strings.TrimSpace (bufio.dropCR raw) = "" := (TrimSpace_eq_empty_iff _).mpr hblank
  have hnot : ¬ bufio.MaxScanTokenSize ≤ raw.utf8ByteSize := by omega
  induction pre with
  | nil => simp [bufio.Scanner.scan, Controller.Serve.loop, hnot, he]
  | cons l pre ih =>
    by_cases hl : bufio.MaxScanTokenSize ≤ l.utf8ByteSize
    · simp [bufio.Scanner.scan, hl]
    · have e1 : bufio.Scanner.scan rest err errWithData (l :: (pre ++ raw :: post)) =
          (bufio.dropCR l :: (bufio.Scanner.scan rest err errWithData (pre ++ raw :: post)).1,
            (bufio.Scanner.scan rest err errWithData (pre ++ raw :: post)).2) := by
        simp [bufio.Scanner.scan, hl]
      have e2 : bufio.Scanner.scan rest err errWithData (l :: (pre ++ post)) =
          (bufio.dropCR l :: (bufio.Scanner.scan rest err errWithData (pre ++ post)).1,
            (bufio.Scanner.scan rest err errWithData (pre ++ post)).2) := by
        simp [bufio.Scanner.scan, hl]
      rw [List.cons_append, List.cons_append, e1, e2]
      refine ⟨?_, ih.2⟩
      simp only [Controller.Serve.loop, ih.1]

/-- The loop of `Serve` has no event for a last line without a line feed that
is shorter than `MaxScanTokenSize` and whose text is white space only. -/
theorem Serve_skip_rest (builtin : String → Bool) (err : Option String)
    (errWithData : Bool) (pre : List String) (raw : String)
    (hraw : raw.utf8ByteSize < bufio.MaxScanTokenSize)
    (hblank : ∀ c ∈ (lineText raw).data, unicode.IsSpace c = true) :
    Controller.Serve.loop builtin (bufio.Scanner.scan raw err errWithData pre).1 =
        Controller.Serve.loop builtin (bufio.Scanner.scan "" err errWithData pre).1 ∧
      (bufio.Scanner.scan raw err errWithData pre).2 =
        (bufio.Scanner.scan "" err errWithData pre).2 := by
  have he : strings.TrimSpace (bufio.dropCR raw) = "" := (TrimSpace_eq_empty_iff _).mpr hblank
  induction pre with
  | nil =>
    by_cases hr : raw = ""
    · rw [hr]
      exact ⟨rfl, rfl⟩
    · simp [bufio.Scanner.scan, Controller.Serve.loop, hr, hraw, he]
  | cons l pre ih =>
    by_cases hl : bufio.MaxScanTokenSize ≤ l.utf8ByteSize
    · simp [bufio.Scanner.scan, hl]
    · have e1 : bufio.Scanner.scan raw err errWithData (l :: pre) =
          (bufio.dropCR l :: (bufio.Scanner.scan raw err errWithData pre).1,
            (bufio.Scanner.scan raw err errWithData pre).2) := by
        simp [bufio.Scanner.scan, hl]
      have e2 : bufio.Scanner.scan "" err errWithData (l :: pre) =
          (bufio.dropCR l :: (bufio.Scanner.scan "" err errWithData pre).1,
            (bufio.Scanner.scan "" err errWithData pre).2) := by
        simp [bufio.Scanner.scan, hl]
      rw [e1, e2]
      refine ⟨?_, ih.2⟩
      simp only [Controller.Serve.loop, ih.1]

/-- C12, refuted as stated: on the stream of a line of 64 KiB of spaces
followed by the line "add 1 2", the first line is white space only, yet
`Serve` does not go on to the next line: it returns `ErrTooLong` and "add 1 2"
reaches no handler. -/
theorem Serve_stops_at_blank_long_line :
    (∀ c ∈ blankLongLine.data, unicode.IsSpace c = true) ∧
      "add 1 2" ∈ commands blankLongStream.allLines ∧
      (Controller.Serve sampleBuiltin New blankLongStream).trace = [Event.prompt] ∧
      Event.handleFuncCall "add 1 2" ∉
        (Controller.Serve sampleBuiltin New blankLongStream).trace ∧
      (Controller.Serve sampleBuiltin New blankLongStream).result =
        Outcome.ret (some ScanError.ErrTooLong) := by
  have hs := Serve_long_first sampleBuiltin New blankLongLine "" ["add 1 2"] none false
    (Nat.le_of_eq blankLongLine_size.symm)
  have ht : (Controller.Serve sampleBuiltin New blankLongStream).trace = [Event.prompt] := hs.1
  refine ⟨?_, ?_, ht, ?_, hs.2⟩
  · intro c hc
    have hc2 : c = Char.ofNat 32 := List.eq_of_mem_replicate hc
    rw [hc2]
    decide
  · unfold commands
    rw [List.mem_filter, List.mem_map]
    exact ⟨⟨"add 1 2", by simp [Stream.allLines, blankLongStream], by decide⟩, by decide⟩
  · rw [ht]
    simp

/-- C12, amended: blank lines are skipped without consuming any resource.
For every input line shorter than `bufio.MaxScanTokenSize` (64 KiB) whose text
is empty or white space only, be it a line that ends with a line feed or the
last line without one, `Serve` behaves as on the stream without that line: it
calls no handler and takes no lock for it, so that no response is written for
it, and it goes on with the next line.  On every stream the handlers only
receive a string that is not empty and has neither leading nor trailing white
space. -/
theorem Serve_skips_blank (builtin : String → Bool) (ctrl : Controller)
    (pre post : List String) (raw rest : String) (err : Option String) (errWithData : Bool)
    (hraw : raw.utf8ByteSize < bufio.MaxScanTokenSize)
    (hblank : ∀ c ∈ (lineText raw).data, unicode.IsSpace c = true) :
    Controller.Serve builtin ctrl
        { lines := pre ++ raw :: post, rest := rest, err := err, errWithData := errWithData } =
      Controller.Serve builtin ctrl
        { lines := pre ++ post, rest := rest, err := err, errWithData := errWithData } ∧
    Controller.Serve builtin ctrl
        { lines := pre, rest := raw, err := err, errWithData := errWithData } =
      Controller.Serve builtin ctrl
        { lines := pre, rest := "", err := err, errWithData := errWithData } ∧
    ∀ (rw : Stream) (cmd : String),
      (Event.handleBuiltin cmd ∈ (Controller.Serve builtin ctrl rw).trace ∨
        Event.handleFuncCall cmd ∈ (Controller.Serve builtin ctrl rw).trace) →
      cmd ≠ "" ∧ (∀ c, cmd.data.head? = some c → unicode.IsSpace c = false) ∧
        (∀ c, cmd.data.getLast? = some c → unicode.IsSpace c = false) := by
  have h1 := Serve_skip_line builtin rest err errWithData pre post raw hraw hblank
  have h2 := Serve_skip_rest builtin err errWithData pre raw hraw hblank
  refine ⟨?_, ?_, ?_⟩
  · simp only [Controller.Serve, h1.1, h1.2]
  · simp only [Controller.Serve, h2.1, h2.2]
  · intro rw cmd hmem
    rcases hmem with hmem | hmem
    · exact trimmed_of_mem _ cmd ((Serve_handler_mem builtin ctrl rw cmd).1 hmem).2
    · exact trimmed_of_mem _ cmd ((Serve_handler_mem builtin ctrl rw cmd).2 hmem).2

/-- C12, amended, at a concrete stream: a line of two spaces between "help"
and "add 1 2". -/
theorem Serve_skips_blank_witness :
    ("  ".utf8ByteSize < bufio.MaxScanTokenSize ∧
      ∀ c ∈ (lineText "  ").data, unicode.IsSpace c = true) ∧
    Controller.Serve sampleBuiltin addController
        { lines := ["help"] ++ "  " :: ["add 1 2"], rest := "", err := none,
          errWithData := false } =
      Controller.Serve sampleBuiltin addController
        { lines := ["help"] ++ ["add 1 2"], rest := "", err := none, errWithData := false } :=
  ⟨⟨by decide, by decide⟩,
    (Serve_skips_blank sampleBuiltin addController ["help"] ["add 1 2"] "  " "" none false
      (by decide) (by decide)).1⟩

/-- The number of handler invocations of `Serve` on a stream without a line
of `MaxScanTokenSize` bytes or more. -/
theorem Serve_handler_count (builtin : String → Bool) (ctrl : Controller) (rw : Stream)
    (h : ∀ raw ∈ rw.allLines, raw.utf8ByteSize < bufio.MaxScanTokenSize) :
    ((Controller.Serve builtin ctrl rw).trace.filter Event.isHandler).length =
      (commands rw.allLines).length := by
  rw [Serve_trace_of_short builtin ctrl rw h, List.filter_cons]
  simp only [Event.isHandler, Bool.false_eq_true, if_false]
  rw [filter_isHandler_dispatched, List.length_map]

/-- C13, refuted as stated: on a stream that the transport delivers without a
read error, a line of 64 KiB followed by the line "add 1 2", `Serve` invokes
no handler although a line has a non-empty trimmed text, and stops reading
with `ErrTooLong`, which is neither end of input nor a read error. -/
theorem Serve_stops_at_long_line :
    longFirstStream.err = none ∧
      ((Controller.Serve sampleBuiltin New longFirstStream).trace.filter Event.isHandler).length
        ≠ (commands longFirstStream.allLines).length ∧
      (Controller.Serve sampleBuiltin New longFirstStream).result =
        Outcome.ret (some ScanError.ErrTooLong) := by
  have hs := Serve_long_first sampleBuiltin New longLine "" ["add 1 2"] none false
    (Nat.le_of_eq longLine_size.symm)
  have ht : (Controller.Serve sampleBuiltin New longFirstStream).trace = [Event.prompt] := hs.1
  have hmem : "add 1 2" ∈ commands longFirstStream.allLines := by
    unfold commands
    rw [List.mem_filter, List.mem_map]
    exact ⟨⟨"add 1 2", by simp [Stream.allLines, longFirstStream], by decide⟩, by decide⟩
  refine ⟨rfl, ?_, hs.2⟩
  rw [ht]
  intro h
  have hpos := List.length_pos_of_mem hmem
  rw [← h] at hpos
  exact absurd hpos (by decide)

/-- C13, amended: no per-command outcome terminates the session.  For every
input stream whose lines are all shorter than `bufio.MaxScanTokenSize`
(64 KiB), the number of handler invocations of `Serve` is the number of lines
whose trimmed text is not empty, and `Serve` ends with what ended the stream:
end of input or the read error.  Neither depends on which handler ran for a
line.  On any stream `Serve` stops reading only at end of input, at a read
error, or when the scanner fails with `ErrTooLong`, which happens only on a
stream with a line of 64 KiB or more. -/
theorem Serve_handles_all_lines (builtin : String → Bool) (ctrl : Controller) (rw : Stream)
    (hlim : ∀ raw ∈ rw.allLines, raw.utf8ByteSize < bufio.MaxScanTokenSize) :
    ((Controller.Serve builtin ctrl rw).trace.filter Event.isHandler).length =
        (commands rw.allLines).length ∧
      (Controller.Serve builtin ctrl rw).result =
        Outcome.ret (rw.err.map ScanError.readError) ∧
      (∀ builtin2 : String → Bool,
        ((Controller.Serve builtin2 ctrl rw).trace.filter Event.isHandler).length =
            ((Controller.Serve builtin ctrl rw).trace.filter Event.isHandler).length ∧
          (Controller.Serve builtin2 ctrl rw).result = (Controller.Serve builtin ctrl rw).result) ∧
      ∀ rw2 : Stream,
        (Controller.Serve builtin ctrl rw2).result =
            Outcome.ret (rw2.err.map ScanError.readError) ∨
          ((Controller.Serve builtin ctrl rw2).result = Outcome.ret (some ScanError.ErrTooLong) ∧
            ∃ raw ∈ rw2.allLines, bufio.MaxScanTokenSize ≤ raw.utf8ByteSize) := by
  refine ⟨Serve_handler_count builtin ctrl rw hlim, Serve_result_of_short builtin ctrl rw hlim,
    ?_, ?_⟩
  · intro builtin2
    rw [Serve_handler_count builtin2 ctrl rw hlim, Serve_handler_count builtin ctrl rw hlim,
      Serve_result_of_short builtin2 ctrl rw hlim, Serve_result_of_short builtin ctrl rw hlim]
    exact ⟨rfl, rfl⟩
  · intro rw2
    rcases scan_err_cases rw2.rest rw2.err rw2.errWithData rw2.lines with h | ⟨h, hex⟩
    · left
      simp only [Controller.Serve, h]
    · right
      refine ⟨?_, hex⟩
      simp only [Controller.Serve, h]

/-- C13, amended, at a concrete stream: three short lines, one of them empty,
and a last line without a line feed. -/
theorem Serve_handles_all_lines_witness :
    (∀ raw ∈ shortStream.allLines, raw.utf8ByteSize < bufio.MaxScanTokenSize) ∧
      ((Controller.Serve sampleBuiltin addController shortStream).trace.filter
          Event.isHandler).length = (commands shortStream.allLines).length ∧
      (Controller.Serve sampleBuiltin addController shortStream).result =
        Outcome.ret (shortStream.err.map ScanError.readError) :=
  ⟨by decide,
    (Serve_handles_all_lines sampleBuiltin addController shortStream (by decide)).1,
    (Serve_handles_all_lines sampleBuiltin addController shortStream (by decide)).2.1⟩

/-- C14, refuted as stated: the stream of the line "add 1 2" followed by a
line of 64 KiB ends cleanly, yet `Serve` does not return nil: it returns
`ErrTooLong`, an error of the scanner and not of the transport, after
dispatching the first line. -/
theorem Serve_returns_ErrTooLong :
    longLastStream.err = none ∧
      (Controller.Serve sampleBuiltin New longLastStream).result ≠ Outcome.ret none ∧
      (Controller.Serve sampleBuiltin New longLastStream).result =
        Outcome.ret (some ScanError.ErrTooLong) ∧
      (Controller.Serve sampleBuiltin New longLastStream).trace =
        [Event.prompt, Event.RLock, Event.handleFuncCall "add 1 2", Event.RUnlock] := by
  have hshort : ¬ bufio.MaxScanTokenSize ≤ "add 1 2".utf8ByteSize := by decide
  have hscan : bufio.Scanner.scan "" none false ["add 1 2", longLine] =
      ([bufio.dropCR "add 1 2"], some ScanError.ErrTooLong) := by
    simp [bufio.Scanner.scan, hshort, longLine_size]
  have hres : (Controller.Serve sampleBuiltin New longLastStream).result =
      Outcome.ret (some ScanError.ErrTooLong) := by
    simp only [Controller.Serve, longLastStream, hscan]
  refine ⟨rfl, ?_, hres, ?_⟩
  · rw [hres]
    intro h
    cases h
  · simp only [Controller.Serve, longLastStream, hscan]
    decide

/-- C14, amended: `Serve` returns the terminal transport error and nothing
else when no line is 64 KiB or longer.  For every input stream whose lines
are all shorter than `bufio.MaxScanTokenSize`, `Serve` returns nil if the
stream ends cleanly and the read error if reading the stream fails; the value
returned does not depend on the classification of the commands nor on the
controller, so it never reflects a per-command error; and every line of the
stream has been dispatched, in order, before `Serve` returns. -/
theorem Serve_returns_transport_err (builtin : String → Bool) (ctrl : Controller)
    (rw : Stream) (hlim : ∀ raw ∈ rw.allLines, raw.utf8ByteSize < bufio.MaxScanTokenSize) :
    (rw.err = none → (Controller.Serve builtin ctrl rw).result = Outcome.ret none) ∧
      (∀ e : String, rw.err = some e →
        (Controller.Serve builtin ctrl rw).result =
          Outcome.ret (some (ScanError.readError e))) ∧
      (∀ (builtin2 : String → Bool) (ctrl2 : Controller),
        (Controller.Serve builtin2 ctrl2 rw).result = (Controller.Serve builtin ctrl rw).result) ∧
      (Controller.Serve builtin ctrl rw).trace.filter Event.isHandler =
        (commands rw.allLines).map (dispatch builtin) := by
  have hres := Serve_result_of_short builtin ctrl rw hlim
  refine ⟨?_, ?_, ?_, ?_⟩
  · intro he
    rw [hres, he]
    rfl
  · intro e he
    rw [hres, he]
    rfl
  · intro builtin2 ctrl2
    rw [hres, Serve_result_of_short builtin2 ctrl2 rw hlim]
  · rw [Serve_trace_of_short builtin ctrl rw hlim, List.filter_cons]
    simp only [Event.isHandler, Bool.false_eq_true, if_false]
    rw [filter_isHandler_dispatched]

/-- C14, amended, at concrete streams: short lines ended by end of input, and
short lines ended by a read error. -/
theorem Serve_returns_transport_err_witness :
    (∀ raw ∈ shortStream.allLines, raw.utf8ByteSize < bufio.MaxScanTokenSize) ∧
      (Controller.Serve sampleBuiltin addController shortStream).result = Outcome.ret none ∧
      (Controller.Serve sampleBuiltin addController
          { lines := ["add 1 2"], rest := "he", err := some "connection reset",
            errWithData := false }).result =
        Outcome.ret (some (ScanError.readError "connection reset")) :=
  ⟨by decide,
    (Serve_returns_transport_err sampleBuiltin addController shortStream (by decide)).1 rfl,
    (Serve_returns_transport_err sampleBuiltin addController
      { lines := ["add 1 2"], rest := "he", err := some "connection reset",
        errWithData := false } (by decide)).2.1 "connection reset" rfl⟩

/-- The events of dispatched commands respect shared access. -/
theorem sharedDiscipline_dispatched (builtin : String → Bool) (cmds : List String) :
    sharedDiscipline false
      (cmds.flatMap (fun cmd => [Event.RLock, dispatch builtin cmd, Event.RUnlock])) = true := by
  induction cmds with
  | nil => rfl
  | cons cmd rest ih =>
    rw [List.flatMap_cons]
    unfold dispatch
    split <;> simpa [sharedDiscipline] using ih

/-- The numbers of `RLock` and of `RUnlock` among the events of dispatched
commands. -/
theorem count_dispatched (builtin : String → Bool) (cmds : List String) :
    (cmds.flatMap (fun cmd => [Event.RLock, dispatch builtin cmd, Event.RUnlock])).count
        Event.RLock = cmds.length ∧
      (cmds.flatMap (fun cmd => [Event.RLock, dispatch builtin cmd, Event.RUnlock])).count
        Event.RUnlock = cmds.length := by
  induction cmds with
  | nil => exact ⟨rfl, rfl⟩
  | cons cmd rest ih =>
    have hd : dispatch builtin cmd = Event.handleBuiltin cmd ∨
        dispatch builtin cmd = Event.handleFuncCall cmd := by
      unfold dispatch
      split
      · exact Or.inl rfl
      · exact Or.inr rfl
    rw [List.flatMap_cons, List.count_append, List.count_append, ih.1, ih.2]
    rcases hd with hd | hd <;> rw [hd] <;> simp [List.count_cons] <;> omega

/-- The events of a sequence of dispatched commands after `prompt`: shared
access is respected and `RLock`, `RUnlock` and the handler invocations are as
many as the commands. -/
theorem dispatched_trace_facts (builtin : String → Bool) (cmds : List String) :
    sharedDiscipline false (Event.prompt ::
        cmds.flatMap (fun cmd => [Event.RLock, dispatch builtin cmd, Event.RUnlock])) = true ∧
      (Event.prompt ::
        cmds.flatMap (fun cmd => [Event.RLock, dispatch builtin cmd, Event.RUnlock])).count
          Event.RLock = cmds.length ∧
      (Event.prompt ::
        cmds.flatMap (fun cmd => [Event.RLock, dispatch builtin cmd, Event.RUnlock])).count
          Event.RUnlock = cmds.length ∧
      ((Event.prompt ::
        cmds.flatMap (fun cmd => [Event.RLock, dispatch builtin cmd, Event.RUnlock])).filter
          Event.isHandler).length = cmds.length := by
  have hc := count_dispatched builtin cmds
  refine ⟨sharedDiscipline_dispatched builtin cmds, ?_, ?_, ?_⟩
  · rw [List.count_cons, hc.1]
    simp
  · rw [List.count_cons, hc.2]
    simp
  · rw [List.filter_cons]
    simp only [Event.isHandler, Bool.false_eq_true, if_false]
    rw [filter_isHandler_dispatched, List.length_map]

/-- C16, refuted as stated: on the stream of a line of 64 KiB followed by the
line "help", `Serve` takes the read lock no time, while the stream has lines
whose trimmed text is not empty. -/
theorem Serve_no_lock_after_long_line :
    (Controller.Serve sampleBuiltin New longThenHelpStream).trace.count Event.RLock = 0 ∧
      (Controller.Serve sampleBuiltin New longThenHelpStream).trace.count Event.RLock ≠
        (commands longThenHelpStream.allLines).length := by
  have hs := Serve_long_first sampleBuiltin New longLine "" ["help"] none false
    (Nat.le_of_eq longLine_size.symm)
  have ht : (Controller.Serve sampleBuiltin New longThenHelpStream).trace = [Event.prompt] := hs.1
  have hmem : "help" ∈ commands longThenHelpStream.allLines := by
    unfold commands
    rw [List.mem_filter, List.mem_map]
    exact ⟨⟨"help", by simp [Stream.allLines, longThenHelpStream], by decide⟩, by decide⟩
  have h0 : (Controller.Serve sampleBuiltin New longThenHelpStream).trace.count Event.RLock = 0 := by
    rw [ht]
    decide
  refine ⟨h0, ?_⟩
  rw [h0]
  intro h
  have hpos := List.length_pos_of_mem hmem
  rw [← h] at hpos
  exact absurd hpos (by decide)

/-- C16, amended: `Serve` holds shared access for the whole of every dispatch
and never otherwise.  On every input stream the events of `Serve` are the call
of `prompt` followed, for each command it dispatches, by `RLock`, the
invocation of the handler and `RUnlock`: each handler invocation is
immediately preceded by one `RLock` and immediately followed by one `RUnlock`,
`RLock` and `RUnlock` alternate starting with `RLock`, no handler runs without
the read lock held, no lock is held when `Serve` returns, and `RLock`,
`RUnlock` and the handler invocations are equally many.  When all lines of the
stream are shorter than `bufio.MaxScanTokenSize` (64 KiB) the commands
dispatched are those of all lines, and that number is the number of lines
whose trimmed text is not empty. -/
theorem Serve_shared_access (builtin : String → Bool) (ctrl : Controller) (rw : Stream)
    (hlim : ∀ raw ∈ rw.allLines, raw.utf8ByteSize < bufio.MaxScanTokenSize) :
    ((Controller.Serve builtin ctrl rw).trace =
        Event.prompt :: (commands rw.allLines).flatMap
          (fun cmd => [Event.RLock,
            if builtin cmd = true then Event.handleBuiltin cmd else Event.handleFuncCall cmd,
            Event.RUnlock]) ∧
      (Controller.Serve builtin ctrl rw).trace.count Event.RLock =
        (commands rw.allLines).length ∧
      (Controller.Serve builtin ctrl rw).trace.count Event.RUnlock =
        (commands rw.allLines).length ∧
      ((Controller.Serve builtin ctrl rw).trace.filter Event.isHandler).length =
        (commands rw.allLines).length) ∧
    ∀ rw2 : Stream,
      (∃ cmds : List String,
        (Controller.Serve builtin ctrl rw2).trace =
          Event.prompt :: cmds.flatMap
            (fun cmd => [Event.RLock,
              if builtin cmd = true then Event.handleBuiltin cmd else Event.handleFuncCall cmd,
              Event.RUnlock])) ∧
      sharedDiscipline false (Controller.Serve builtin ctrl rw2).trace = true ∧
      (Controller.Serve builtin ctrl rw2).trace.count Event.RUnlock =
        (Controller.Serve builtin ctrl rw2).trace.count Event.RLock ∧
      ((Controller.Serve builtin ctrl rw2).trace.filter Event.isHandler).length =
        (Controller.Serve builtin ctrl rw2).trace.count Event.RLock := by
  constructor
  · have hf := dispatched_trace_facts builtin (commands rw.allLines)
    rw [← Serve_trace_of_short builtin ctrl rw hlim] at hf
    exact ⟨Serve_trace_of_short builtin ctrl rw hlim, hf.2.1, hf.2.2.1, hf.2.2.2⟩
  · intro rw2
    have hf := dispatched_trace_facts builtin
      (((bufio.Scanner.scan rw2.rest rw2.err rw2.errWithData rw2.lines).1.map
        strings.TrimSpace).filter (fun cmd => decide (cmd ≠ "")))
    rw [← Serve_trace builtin ctrl rw2] at hf
    refine ⟨⟨_, Serve_trace builtin ctrl rw2⟩, hf.1, ?_, ?_⟩
    · rw [hf.2.2.1, hf.2.1]
    · rw [hf.2.2.2, hf.2.1]

/-- C16, amended, at a concrete stream: three short lines and a last line
without a line feed. -/
theorem Serve_shared_access_witness :
    (∀ raw ∈ shortStream.allLines, raw.utf8ByteSize < bufio.MaxScanTokenSize) ∧
      (Controller.Serve sampleBuiltin addController shortStream).trace.count Event.RLock =
        (commands shortStream.allLines).length ∧
      (Controller.Serve sampleBuiltin addController shortStream).trace =
        [Event.prompt, Event.RLock, Event.handleBuiltin "help", Event.RUnlock,
          Event.RLock, Event.handleFuncCall "add 1 2", Event.RUnlock,
          Event.RLock, Event.handleBuiltin "list", Event.RUnlock] :=
  ⟨by decide,
    (Serve_shared_access sampleBuiltin addController shortStream (by decide)).1.2.1,
    by decide⟩

/-! ## The lock and the map in `Register` -/

/-- The descriptor `genFuncMeta` returns for a function value whose
parameters all pass `checkType`. -/
theorem genFuncMeta_ok (fn : Iface) (name desc : String) (h1 : fn.isFunction = true)
    (h2 : fn.params.all (fun t => checkType t.Kind) = true) :
    genFuncMeta fn name desc = Outcome.ret (Except.ok (builtMeta fn name desc)) := by
  rcases fn with _ | ⟨⟨nm, k, ins, outs⟩, d⟩
  · cases h1
  · cases k <;> try cases h1
    rw [genFuncMeta_func]
    have h3 : ins.all (fun t => checkType t.Kind) = true := h2
    rw [if_pos h3]
    rfl

/-- C17: `Register` touches the map only under exclusive access and only
after validation has completed.  On every call the events are none at all, or
`Lock`, the read of `funcs[name]`, `Unlock`, or `Lock`, the read, the write of
`funcs[name]`, `Unlock`: reads and writes of the map lie between `Lock` and
the matching `Unlock`, and the lock is released once on every path that took
it.  When validation fails (nil `fn`, empty name, not a function, unsupported
parameter kind) there is no event and the controller is unchanged.  When the
lock is taken `genFuncMeta` has returned a descriptor, and a write stores that
descriptor under `name` and nothing else. -/
theorem Register_exclusive_access (ctrl : Controller) (fn : Iface) (name desc : String) :
    ((ctrl.Register fn name desc).trace = [] ∨
        (ctrl.Register fn name desc).trace =
          [Event.Lock, Event.readFuncs name, Event.Unlock] ∨
        (ctrl.Register fn name desc).trace =
          [Event.Lock, Event.readFuncs name, Event.writeFuncs name, Event.Unlock]) ∧
      exclusiveDiscipline false (ctrl.Register fn name desc).trace = true ∧
      (ctrl.Register fn name desc).trace.count Event.Unlock =
        (ctrl.Register fn name desc).trace.count Event.Lock ∧
      ((fn.isNil = true ∨ name = "" ∨ fn.isFunction = false ∨
          ∃ t ∈ fn.params, t.Kind ∉ supportedKinds) →
        (ctrl.Register fn name desc).trace = [] ∧ (ctrl.Register fn name desc).ctrl = ctrl ∧
          ∃ err, (ctrl.Register fn name desc).result = Outcome.ret (some err)) ∧
      (Event.Lock ∈ (ctrl.Register fn name desc).trace →
        genFuncMeta fn name desc = Outcome.ret (Except.ok (builtMeta fn name desc))) ∧
      (∀ key : String, Event.writeFuncs key ∈ (ctrl.Register fn name desc).trace →
        key = name ∧
          genFuncMeta fn name desc = Outcome.ret (Except.ok (builtMeta fn name desc)) ∧
          (ctrl.Register fn name desc).ctrl.funcs =
            ctrl.funcs.insert name (builtMeta fn name desc) ∧
          (ctrl.Register fn name desc).result = Outcome.ret none) := by
  rw [Register_eq]
  split_ifs with h1 h2 h3 h4 h5
  · refine ⟨Or.inl rfl, rfl, rfl, fun _ => ⟨rfl, rfl, _, rfl⟩, ?_, ?_⟩
    · intro h
      cases h
    · intro key h
      cases h
  · refine ⟨Or.inl rfl, rfl, rfl, fun _ => ⟨rfl, rfl, _, rfl⟩, ?_, ?_⟩
    · intro h
      cases h
    · intro key h
      cases h
  · refine ⟨Or.inl rfl, rfl, rfl, fun _ => ⟨rfl, rfl, _, rfl⟩, ?_, ?_⟩
    · intro h
      cases h
    · intro key h
      cases h
  · refine ⟨Or.inl rfl, rfl, rfl, fun _ => ⟨rfl, rfl, _, rfl⟩, ?_, ?_⟩
    · intro h
      cases h
    · intro key h
      cases h
  · have hf : fn.isFunction = true := by simpa using h3
    have hall : fn.params.all (fun t => checkType t.Kind) = true := by simpa using h4
    refine ⟨Or.inr (Or.inl rfl), rfl, ?_, ?_, fun _ => genFuncMeta_ok fn name desc hf hall, ?_⟩
    · simp [List.count_cons]
    · rintro (h | h | h | ⟨t, ht, hk⟩)
      · exact absurd h h1
      · exact absurd h h2
      · exact absurd h h3
      · exact absurd ((all_checkType_iff fn.params).mp hall t ht) hk
    · intro key h
      simp at h
  · have hf : fn.isFunction = true := by simpa using h3
    have hall : fn.params.all (fun t => checkType t.Kind) = true := by simpa using h4
    refine ⟨Or.inr (Or.inr rfl), rfl, ?_, ?_, fun _ => genFuncMeta_ok fn name desc hf hall, ?_⟩
    · simp [List.count_cons]
    · rintro (h | h | h | ⟨t, ht, hk⟩)
      · exact absurd h h1
      · exact absurd h h2
      · exact absurd h h3
      · exact absurd ((all_checkType_iff fn.params).mp hall t ht) hk
    · intro key h
      simp at h
      exact ⟨h, genFuncMeta_ok fn name desc hf hall, rfl, rfl⟩

/-! ## Totality and validation -/

/-- C18: `Register` is total.  For every controller made by `New` and calls of
`Register` and `MustRegister`, every `fn` (the nil interface, a value that is
not a function, a function of any arity), every `name` and `desc`, `Register`
returns normally.  `genFuncMeta` panics only on the nil interface, which
`Register` rejects before calling it; on a type of kind `Func` the methods
`NumIn` and `NumOut` return, `In` and `Out` return for every index below the
number of parameters or results, and the two loops, which use no other index,
return. -/
theorem Register_total (ctrl : Controller) (_h : Reachable ctrl) (fn : Iface)
    (name desc : String) :
    (∃ err, (ctrl.Register fn name desc).result = Outcome.ret err) ∧
      ((∃ v, genFuncMeta fn name desc = Outcome.panic v) ↔ fn.isNil = true) ∧
      (fn.isNil = true →
        (ctrl.Register fn name desc).result =
          Outcome.ret (some (genErrFunc "Register" "fn must not be nil"))) ∧
      (∀ (nm : String) (ins outs : List RType),
        (RType.mk nm Kind.Func ins outs).NumIn = (Outcome.ret ins.length : Outcome GctrlError Nat) ∧
        (RType.mk nm Kind.Func ins outs).NumOut =
          (Outcome.ret outs.length : Outcome GctrlError Nat) ∧
        (∀ (i : Nat) (hi : i < ins.length),
          (RType.mk nm Kind.Func ins outs).In i =
            (Outcome.ret (ins.get ⟨i, hi⟩) : Outcome GctrlError RType)) ∧
        (∀ (i : Nat) (hi : i < outs.length),
          (RType.mk nm Kind.Func ins outs).Out i =
            (Outcome.ret (outs.get ⟨i, hi⟩) : Outcome GctrlError RType)) ∧
        (∃ r, genFuncMeta.inLoop (RType.mk nm Kind.Func ins outs) ins.length 0 [] =
          Outcome.ret r) ∧
        genFuncMeta.outLoop (RType.mk nm Kind.Func ins outs) outs.length 0 [] =
          Outcome.ret outs) := by
  refine ⟨Register_result_ret ctrl fn name desc, ?_, ?_, ?_⟩
  · rcases fn with _ | ⟨⟨nm, k, ins, outs⟩, d⟩
    · simp [genFuncMeta, reflect.TypeOf, Iface.isNil]
    · have hnil : (Iface.val (RType.mk nm k ins outs) d).isNil = false := rfl
      rw [hnil]
      refine ⟨?_, fun hf => by cases hf⟩
      rintro ⟨v, hv⟩
      by_cases hk : k = Kind.Func
      · subst hk
        rw [genFuncMeta_func] at hv
        split_ifs at hv
      · rw [genFuncMeta_nonFunc _ _ _ _ (by exact hk)] at hv
        cases hv
  · intro hnil
    rw [Register_eq, if_pos hnil]
  · intro nm ins outs
    refine ⟨rfl, rfl, ?_, ?_, ?_, ?_⟩
    · intro i hi
      simp [RType.In, List.getElem?_eq_getElem hi]
    · intro i hi
      simp [RType.Out, List.getElem?_eq_getElem hi]
    · rw [inLoop_func nm ins outs ins.length 0 [] (by omega)]
      split_ifs <;> exact ⟨_, rfl⟩
    · rw [outLoop_func nm ins outs outs.length 0 [] (by omega)]
      simp

/-- C18, at a concrete call: the nil interface on the controller that holds
"add". -/
theorem Register_total_witness :
    Reachable addController ∧
      ∃ err, (addController.Register Iface.nil "f" "").result = Outcome.ret err :=
  ⟨Reachable.register New addFn "add" "sum" Reachable.new,
    (Register_total addController (Reachable.register New addFn "add" "sum" Reachable.new)
      Iface.nil "f" "").1⟩

/-- C19: parameter validation depends only on the kinds of the parameters.
For any two function values whose parameters are equally many and have
pairwise equal kinds, `genFuncMeta` fails for the one if and only if it fails
for the other, whatever the names of the parameter types, the result types,
and the `name` and `desc` arguments.  So a parameter of the defined type
`ID`, of kind int64, is accepted like `int64`, while `int`, `int32` and a
variadic `...string` parameter, of kind `Slice`, are rejected. -/
theorem genFuncMeta_kinds_only :
    (∀ (nm nm2 : String) (ins ins2 outs outs2 : List RType) (d d2 : Option Nat)
        (name name2 desc desc2 : String),
        ins.map RType.Kind = ins2.map RType.Kind →
        ((∃ msg, genFuncMeta (Iface.val (RType.mk nm Kind.Func ins outs) d) name desc =
            Outcome.ret (Except.error msg)) ↔
          (∃ msg, genFuncMeta (Iface.val (RType.mk nm2 Kind.Func ins2 outs2) d2) name2 desc2 =
            Outcome.ret (Except.error msg)))) ∧
      genFuncMeta (funcOf [idType]) "f" "" = Outcome.ret (Except.ok (builtMeta (funcOf [idType]) "f" "")) ∧
      genFuncMeta (funcOf [int64Type]) "f" "" =
        Outcome.ret (Except.ok (builtMeta (funcOf [int64Type]) "f" "")) ∧
      genFuncMeta (funcOf [intType]) "f" "" = Outcome.ret (Except.error paramTypeMsg) ∧
      genFuncMeta (funcOf [int32Type]) "f" "" = Outcome.ret (Except.error paramTypeMsg) ∧
      genFuncMeta (funcOf [stringSliceType]) "f" "" = Outcome.ret (Except.error paramTypeMsg) := by
  refine ⟨?_, by rfl, by rfl, by rfl, by rfl, by rfl⟩
  intro nm nm2 ins ins2 outs outs2 d d2 name name2 desc desc2 hk
  have hall : ins.all (fun t => checkType t.Kind) = ins2.all (fun t => checkType t.Kind) := by
    have h1 : ∀ l : List RType,
        l.all (fun t => checkType t.Kind) = (l.map RType.Kind).all checkType := by
      intro l
      induction l with
      | nil => rfl
      | cons t ts ih => simp [List.all_cons, ih]
    rw [h1, h1, hk]
  rw [genFuncMeta_func, genFuncMeta_func, hall]
  split_ifs
  · constructor
    · rintro ⟨msg, hm⟩
      cases hm
    · rintro ⟨msg, hm⟩
      cases hm
  · exact ⟨fun _ => ⟨_, rfl⟩, fun _ => ⟨_, rfl⟩⟩

/-! ## Registrations under distinct names -/

/-- The result of `Register` depends on the controller only through whether
`name` is a key of the map. -/
theorem Register_result_congr (ctrl ctrl2 : Controller) (fn : Iface) (name desc : String)
    (h : (ctrl.funcs.lookup name).isSome = (ctrl2.funcs.lookup name).isSome) :
    (ctrl.Register fn name desc).result = (ctrl2.Register fn name desc).result := by
  rw [Register_eq, Register_eq, h]
  split_ifs <;> rfl

/-- The controller after `Register`, by its result. -/
theorem Register_ctrl_cases (ctrl : Controller) (fn : Iface) (name desc : String) :
    ((ctrl.Register fn name desc).result = Outcome.ret none ∧
        (ctrl.Register fn name desc).ctrl =
          { funcs := ctrl.funcs.insert name (builtMeta fn name desc) }) ∨
      ((∃ err, (ctrl.Register fn name desc).result = Outcome.ret (some err)) ∧
        (ctrl.Register fn name desc).ctrl = ctrl) := by
  obtain ⟨err, herr⟩ := Register_result_ret ctrl fn name desc
  cases err with
  | none => exact Or.inl ⟨herr, (Register_nil_inv ctrl fn name desc herr).2.2.2.2.2⟩
  | some e => exact Or.inr ⟨⟨e, herr⟩, Register_error_ctrl ctrl fn name desc e herr⟩

/-- A call of `Register` does not change what another name maps to. -/
theorem Register_lookup_other (ctrl : Controller) (fn : Iface) (name desc key : String)
    (hne : key ≠ name) :
    (ctrl.Register fn name desc).ctrl.funcs.lookup key = ctrl.funcs.lookup key := by
  rcases Register_ctrl_cases ctrl fn name desc with ⟨_, hc⟩ | ⟨_, hc⟩
  · rw [hc]
    exact AList.lookup_insert_ne hne
  · rw [hc]

/-- The entries after two calls of `Register` under distinct names, in either
order, are the same up to their order. -/
theorem Register_commute_entries (ctrl : Controller) (f g : Iface) (n1 n2 d1 d2 : String)
    (hne : n1 ≠ n2) :
    List.Perm ((ctrl.Register f n1 d1).ctrl.Register g n2 d2).ctrl.funcs.entries
      ((ctrl.Register g n2 d2).ctrl.Register f n1 d1).ctrl.funcs.entries := by
  have hres1 : ((ctrl.Register g n2 d2).ctrl.Register f n1 d1).result =
      (ctrl.Register f n1 d1).result :=
    Register_result_congr _ ctrl f n1 d1 (by rw [Register_lookup_other ctrl g n2 d2 n1 hne])
  have hres2 : ((ctrl.Register f n1 d1).ctrl.Register g n2 d2).result =
      (ctrl.Register g n2 d2).result :=
    Register_result_congr _ ctrl g n2 d2
      (by rw [Register_lookup_other ctrl f n1 d1 n2 (Ne.symm hne)])
  obtain ⟨ea, ha⟩ := Register_result_ret ctrl f n1 d1
  obtain ⟨eb, hb⟩ := Register_result_ret ctrl g n2 d2
  rw [ha] at hres1
  rw [hb] at hres2
  cases ea with
  | none =>
    have hca := (Register_nil_inv _ f n1 d1 ha).2.2.2.2.2
    have hba := (Register_nil_inv _ f n1 d1 hres1).2.2.2.2.2
    cases eb with
    | none =>
      have hcb := (Register_nil_inv _ g n2 d2 hb).2.2.2.2.2
      have hab := (Register_nil_inv _ g n2 d2 hres2).2.2.2.2.2
      rw [hab, hba, hca, hcb]
      exact AList.insert_insert_of_ne ctrl.funcs hne
    | some e =>
      have hcb := Register_error_ctrl _ g n2 d2 e hb
      have hab := Register_error_ctrl _ g n2 d2 e hres2
      rw [hab, hba, hca, hcb]
  | some e1 =>
    have hca := Register_error_ctrl _ f n1 d1 e1 ha
    have hba := Register_error_ctrl _ f n1 d1 e1 hres1
    cases eb with
    | none =>
      have hcb := (Register_nil_inv _ g n2 d2 hb).2.2.2.2.2
      have hab := (Register_nil_inv _ g n2 d2 hres2).2.2.2.2.2
      rw [hab, hba, hca, hcb]
    | some e =>
      have hcb := Register_error_ctrl _ g n2 d2 e hb
      have hab := Register_error_ctrl _ g n2 d2 e hres2
      rw [hab, hba, hca, hcb]

/-- C20: registrations under distinct names commute.  For every controller
and any two calls `Register(f, n1, d1)` and `Register(g, n2, d2)` with
`n1 != n2`, each call returns the same result, nil or the same error, whether
it comes first or second, and the maps after the two calls are the same in
both orders: they have the same entries and every key maps to the same
descriptor. -/
theorem Register_commute (ctrl : Controller) (f g : Iface) (n1 n2 d1 d2 : String)
    (hne : n1 ≠ n2) :
    ((ctrl.Register g n2 d2).ctrl.Register f n1 d1).result = (ctrl.Register f n1 d1).result ∧
      ((ctrl.Register f n1 d1).ctrl.Register g n2 d2).result =
        (ctrl.Register g n2 d2).result ∧
      List.Perm ((ctrl.Register f n1 d1).ctrl.Register g n2 d2).ctrl.funcs.entries
        ((ctrl.Register g n2 d2).ctrl.Register f n1 d1).ctrl.funcs.entries ∧
      ∀ key : String,
        ((ctrl.Register f n1 d1).ctrl.Register g n2 d2).ctrl.funcs.lookup key =
          ((ctrl.Register g n2 d2).ctrl.Register f n1 d1).ctrl.funcs.lookup key := by
  have hperm := Register_commute_entries ctrl f g n1 n2 d1 d2 hne
  refine ⟨?_, ?_, hperm, fun key => AList.perm_lookup hperm⟩
  · exact Register_result_congr _ ctrl f n1 d1
      (by rw [Register_lookup_other ctrl g n2 d2 n1 hne])
  · exact Register_result_congr _ ctrl g n2 d2
      (by rw [Register_lookup_other ctrl f n1 d1 n2 (Ne.symm hne)])

/-- C20, at a concrete pair of calls: "sub" and "join" on the controller that
holds "add"; the first is accepted and the second rejected in both orders. -/
theorem Register_commute_witness :
    "sub" ≠ "join" ∧
      ((addController.Register joinFn "join" "").ctrl.Register subFn "sub" "").result =
        (addController.Register subFn "sub" "").result ∧
      ((addController.Register subFn "sub" "").ctrl.Register joinFn "join" "").result =
        (addController.Register joinFn "join" "").result ∧
      List.Perm ((addController.Register subFn "sub" "").ctrl.Register joinFn "join" "").ctrl.funcs.entries
        ((addController.Register joinFn "join" "").ctrl.Register subFn "sub" "").ctrl.funcs.entries ∧
      ∀ key : String,
        ((addController.Register subFn "sub" "").ctrl.Register joinFn "join" "").ctrl.funcs.lookup key =
          ((addController.Register joinFn "join" "").ctrl.Register subFn "sub" "").ctrl.funcs.lookup key :=
  ⟨by decide, Register_commute addController subFn joinFn "sub" "join" "" "" (by decide)⟩

end Gctrl
